import Mathlib

/-!
Verification development for the Drag-Doc ingestion-to-report pipeline.

The Python sources under `backend/` are shallowly embedded as executable
Lean definitions:

* `backend/utils/cleaner.py` — archive normalization (`unzipAndClean`,
  `stripNoise`) over a flat model of the extracted file tree;
* `backend/main.py` — quiz parsing of the two quiz-producing code paths;
* `backend/utils/create_summary.py` — the per-file summary batch and the
  retry wrapper around the generation call;
* `backend/utils/pdf_generator.py` — the heuristic project analyzer and
  the report (story) assembly.

File-system reads are modelled by oracles returning `Except Unit String`
(`Except.error` standing for an `OSError` / decode error raised by the
read); Python `try/except` blocks are modelled by `pyTry` exactly where
the source has them.
-/

/-- Python `str.lower()` restricted to per-character lowering (sufficient
for the ASCII names and patterns the code compares). -/
def lowerStr (s : String) : String := String.mk (s.data.map Char.toLower)

/-- Python `str.endswith(suffix)`. -/
def strEndsWith (s suffix : String) : Bool := suffix.data.isSuffixOf s.data

/-- Python `str.startswith(pre)`. -/
def strStartsWith (s pre : String) : Bool := pre.data.isPrefixOf s.data

/-- Python whitespace as used by `str.strip()`. -/
def isPyWs (c : Char) : Bool :=
  c = ' ' || c = '\t' || c = '\n' || c = '\u000d' || c = '\u000b' || c = '\u000c'

/-- Python `str.strip()` with no argument: drop leading and trailing
whitespace. -/
def pyStrip (s : String) : String :=
  String.mk (((s.data.dropWhile isPyWs).reverse.dropWhile isPyWs).reverse)

/-- The result of a Python computation that may raise: `Except.error ()`
is an uncaught exception. -/
abbrev Py (α : Type) := Except Unit α

/-- A Python `try: ... except: ...` returning a default on any exception. -/
def pyTry {α : Type} (x : Py α) (d : α) : α :=
  match x with
  | .ok a => a
  | .error _ => d

/-! ## Archive normalizer — `backend/utils/cleaner.py` -/

/-- The `noiseDirs` from `cleaner.py` (lines 5-11), verbatim. -/
def noiseDirs : List String := [
  "node_modules", "__pycache__", ".venv", "env", "venv", ".git", ".next",
  "build", "dist", "out", "target", ".gradle", ".terraform", ".scannerwork",
  ".expo", ".parcel-cache", ".idea", ".vscode", ".pytest_cache", ".mypy_cache",
  ".cache", ".github", ".circleci", ".husky", "coverage", "__tests__", "tests",
  "logs", "log", ".history", "ui"]

/-- The `noiseFiles` from `cleaner.py` (lines 13-20), verbatim; note the
mixed-case entries. -/
def noiseFiles : List String := [
  ".gitignore", ".dockerignore", ".env", ".env.local", ".editorconfig", "README.md",
  "README", "LICENSE", "Makefile", "Dockerfile", "docker-compose.yml", "yarn.lock", "package.json",
  "package-lock.json", "pnpm-lock.yaml", "poetry.lock", "Pipfile.lock", "requirements.txt",
  "tsconfig.json", "jsconfig.json", "babel.config.js", "webpack.config.js",
  "vite.config.js", "CMakeLists.txt", "setup.py", "setup.cfg", "pyproject.toml",
  ".prettierrc", ".eslintrc", ".stylelintrc", "Procfile", ".ngrok.yml", ".env.example"]

/-- The `extensionsToDelete` from `cleaner.py` (lines 22-28), verbatim. -/
def extensionsToDelete : List String := [
  ".png", ".jpeg", ".jpg", ".gif", ".svg", ".ico", ".webp",
  ".mp4", ".mp3", ".wav", ".ogg", ".flac", ".aac", ".m4a", ".m4v", ".mov",
  ".avi", ".wmv", ".webm", ".mkv", ".flv", ".vob", ".ogv", ".m3u8", ".ts",
  ".log", ".lock", ".tmp", ".bak", ".class", ".o", ".a", ".jar",
  ".exe", ".dll", ".so", ".dylib", ".iml", ".ipynb_checkpoints", ".csv", ".pptx", ".txt", ".docx", ".pdf"]

/-- The file-removal test of `stripNoise` (cleaner.py line 55):
`fLower in noiseFiles or fLower.startswith('.') or
any(fLower.endswith(ext) for ext in extensionsToDelete)` where
`fLower = f.lower()`. -/
def isNoiseFileName (f : String) : Bool :=
  noiseFiles.contains (lowerStr f) || strStartsWith (lowerStr f) "." ||
    extensionsToDelete.any (fun ext => strEndsWith (lowerStr f) ext)

/-- A file of the extracted tree: the directory path (as a segment list,
relative to the extraction root), the file name, and its bytes. -/
structure FsFile where
  dir : List String
  name : String
  content : String
deriving DecidableEq, Repr

/-- The extracted tree as a flat listing: explicit directories (paths
relative to the root, each as a segment list) plus files. -/
structure FsTree where
  dirs : List (List String)
  files : List FsFile
deriving DecidableEq, Repr

/-- Net effect of `stripNoise` (cleaner.py lines 38-60): the bottom-up
`os.walk` removes every directory whose own name is in `noiseDirs`
together with its whole subtree (`shutil.rmtree`), and removes every file
whose name passes `isNoiseFileName`; the walk root itself is never
tested.  On the flat tree model this is: drop every directory one of
whose path segments is a noise-directory name, and every file that lies
under such a directory or whose name is noise. -/
def stripNoise (t : FsTree) : FsTree :=
  { dirs := t.dirs.filter fun d => !(d.any (fun seg => noiseDirs.contains seg))
    files := t.files.filter fun f =>
      !(f.dir.any (fun seg => noiseDirs.contains seg)) && !(isNoiseFileName f.name) }

/-- The `zipfile.ZipFile.extractall` into a directory that may already hold a
tree: existing entries are overlaid, an archive file replaces a same-path
existing file, other existing entries survive. -/
def extractInto (prior : Option FsTree) (zipContent : FsTree) : FsTree :=
  match prior with
  | none => zipContent
  | some old =>
    { dirs := zipContent.dirs ++ old.dirs.filter (fun d => !(zipContent.dirs.contains d))
      files := zipContent.files ++ old.files.filter (fun f =>
        !(zipContent.files.any (fun g => g.dir = f.dir && g.name = f.name))) }

/-- The `unzipAndClean` (cleaner.py lines 30-36) acting on the state of the
target directory: any prior tree at the target is deleted
(`shutil.rmtree`), the archive is extracted, and `stripNoise` runs.
`zipContent` is the tree stored in the archive; the returned tree is the
new state of the target directory. -/
def unzipAndClean (zipContent : FsTree) (_priorAtTarget : Option FsTree) : FsTree :=
  let cleared : Option FsTree := none
  stripNoise (extractInto cleared zipContent)

/-- The noise predicate exactly as claim C1 states it, on a FILE's own
(unlowered) name: the name is in the noise-file set, or starts with a
dot, or its extension is in the noise-extension set. -/
def claimNoiseFile (f : String) : Bool :=
  noiseFiles.contains f || strStartsWith f "." ||
    extensionsToDelete.any (fun ext => strEndsWith f ext)

/-- C1: the code keeps a file named `README.md` even though that name is
in `noiseFiles`: `stripNoise` lowercases the name before the membership
test (cleaner.py line 55), and `"readme.md"` is not in the list, while
the mixed-case entry `"README.md"` can never equal a lowercased name.
The tree holding the single root-level file `README.md` passes
`stripNoise` unchanged, violating the claimed noise-free invariant. -/
theorem stripNoise_keeps_README :
    stripNoise { dirs := [], files := [⟨[], "README.md", "x"⟩] } =
      { dirs := [], files := [⟨[], "README.md", "x"⟩] } ∧
    noiseFiles.contains "README.md" = true ∧
    claimNoiseFile "README.md" = true ∧
    isNoiseFileName "README.md" = false :=
  ⟨rfl, by decide, by decide, by decide⟩

/-- C9: normalization is idempotent because of clear-before-write — the
result of `unzipAndClean` does not depend on the prior state of the
target directory, so a second run on the same archive reproduces the
first run's tree byte for byte. -/
theorem unzipAndClean_idempotent (zipContent : FsTree) (s t : Option FsTree) :
    unzipAndClean zipContent s = unzipAndClean zipContent t ∧
    unzipAndClean zipContent (some (unzipAndClean zipContent s)) =
      unzipAndClean zipContent s := by
  exact ⟨rfl, rfl⟩

/-! ## Document chunker — `backend/main.py` `chunkDocs` (spec-modelled)

`chunkDocs` (main.py lines 69-71) delegates the split to the external
`RecursiveCharacterTextSplitter(chunk_size=1000, chunk_overlap=200)`,
whose code is not part of this repository. -/

/-- Modelled from the spec: the fixed-size window splitter of §4.2 —
"Split each file's text into fixed-size windows of length `W` (default
1000 units) with overlap `O` (default 200 units) between consecutive
windows of the same file; the final window of a file may be shorter than
`W`."  Fuel-based recursion; `chunkText` supplies sufficient fuel. -/
def chunkGo (w o : Nat) : Nat → List Char → List (List Char)
  | 0, s => [s]
  | fuel + 1, s =>
    if s.length ≤ w then [s]
    else s.take w :: chunkGo w o fuel (s.drop (w - o))

/-- Modelled from the spec: split `s` into windows of length `w` whose
start offsets advance by `w - o`. -/
def chunkText (w o : Nat) (s : List Char) : List (List Char) :=
  chunkGo w o s.length s

/-- Reassembly, "concatenating chunks of a single file with the overlap removed":
the first chunk whole, every later chunk with its first `o` units
dropped. -/
def reassemble (o : Nat) : List (List Char) → List Char
  | [] => []
  | c :: rest => c ++ (rest.map (List.drop o)).flatten

theorem chunkGo_get (w o : Nat) (ho : 0 < w - o) :
    ∀ (fuel : Nat) (s : List Char), s.length ≤ fuel →
      ∀ (i : Nat) (l : List Char), (chunkGo w o fuel s).get? i = some l →
        l = (s.drop (i * (w - o))).take w := by
  intro fuel
  induction fuel with
  | zero =>
    intro s hs i l hl
    have hnil : s = [] := List.eq_nil_of_length_eq_zero (Nat.le_zero.mp hs)
    subst hnil
    cases i with
    | zero =>
      have hl' : l = [] := by simpa [chunkGo] using hl
      subst hl'
      simp
    | succ j => simp [chunkGo] at hl
  | succ fuel ih =>
    intro s hs i l hl
    by_cases hlen : s.length ≤ w
    · rw [chunkGo, if_pos hlen] at hl
      cases i with
      | zero =>
        have hl' : s = l := by simpa using hl
        rw [← hl', Nat.zero_mul, List.drop_zero, List.take_of_length_le hlen]
      | succ j => simp at hl
    · rw [chunkGo, if_neg hlen] at hl
      cases i with
      | zero =>
        have hl' : s.take w = l := by simpa using hl
        rw [← hl', Nat.zero_mul, List.drop_zero]
      | succ j =>
        simp only [List.get?_cons_succ] at hl
        have hs' : (s.drop (w - o)).length ≤ fuel := by
          rw [List.length_drop]
          omega
        have := ih (s.drop (w - o)) hs' j l hl
        rw [this, List.drop_drop]
        congr 2
        ring

theorem chunkGo_joinDropped (w o : Nat) (ho : o < w) :
    ∀ (fuel : Nat) (s : List Char), s.length ≤ fuel →
      ((chunkGo w o fuel s).map (List.drop o)).flatten = s.drop o := by
  intro fuel
  induction fuel with
  | zero =>
    intro s hs
    have hnil : s = [] := List.eq_nil_of_length_eq_zero (Nat.le_zero.mp hs)
    subst hnil
    simp [chunkGo]
  | succ fuel ih =>
    intro s hs
    by_cases hlen : s.length ≤ w
    · rw [chunkGo, if_pos hlen]
      simp
    · rw [chunkGo, if_neg hlen]
      have hs' : (s.drop (w - o)).length ≤ fuel := by
        rw [List.length_drop]
        omega
      have hlenw : w ≤ s.length := Nat.le_of_not_le hlen
      have htw : (s.take w).length = w := by
        rw [List.length_take]
        omega
      calc ((s.take w :: chunkGo w o fuel (s.drop (w - o))).map (List.drop o)).flatten
          = (s.take w).drop o ++
              ((chunkGo w o fuel (s.drop (w - o))).map (List.drop o)).flatten := by
            simp
        _ = (s.take w).drop o ++ (s.drop (w - o)).drop o := by rw [ih _ hs']
        _ = (s.take w).drop o ++ s.drop w := by
            rw [List.drop_drop, Nat.sub_add_cancel (Nat.le_of_lt ho)]
        _ = s.drop o := by
            have how : o ≤ (s.take w).length := by rw [htw]; omega
            conv_rhs => rw [← List.take_append_drop w s]
            rw [List.drop_append_of_le_length how]

theorem chunkGo_reassemble (w o : Nat) (ho : o < w) :
    ∀ (fuel : Nat) (s : List Char), s.length ≤ fuel →
      reassemble o (chunkGo w o fuel s) = s := by
  intro fuel
  induction fuel with
  | zero =>
    intro s hs
    have hnil : s = [] := List.eq_nil_of_length_eq_zero (Nat.le_zero.mp hs)
    subst hnil
    simp [chunkGo, reassemble]
  | succ fuel ih =>
    intro s hs
    by_cases hlen : s.length ≤ w
    · rw [chunkGo, if_pos hlen]
      simp [reassemble]
    · rw [chunkGo, if_neg hlen]
      have hs' : (s.drop (w - o)).length ≤ fuel := by
        rw [List.length_drop]
        omega
      rw [reassemble, chunkGo_joinDropped w o ho fuel _ hs', List.drop_drop]
      have hwo : w - o + o = w := by omega
      rw [hwo]
      exact List.take_append_drop w s

/-- C2: with the configured `chunk_size=1000` and `chunk_overlap=200`
(main.py line 70), every chunk is a window of at most `W = 1000` units;
chunk `i` is the window of the file text starting at offset `i * 800`,
so the start offset of chunk `i+1` is exactly `W - O = 800` units after
the start offset of chunk `i`; and concatenating the chunks with the
200-unit overlap removed reconstructs the file text exactly. -/
theorem chunkText_window_overlap (s : List Char) (i : Nat) (l : List Char)
    (h : (chunkText 1000 200 s).get? i = some l) :
    l.length ≤ 1000 ∧ l = (s.drop (i * 800)).take 1000 ∧
    reassemble 200 (chunkText 1000 200 s) = s := by
  have hget := chunkGo_get 1000 200 (by norm_num) s.length s (le_refl _) i l h
  refine ⟨?_, ?_, ?_⟩
  · rw [hget]
    exact le_trans (List.length_take_le _ _) (le_refl _)
  · simpa using hget
  · exact chunkGo_reassemble 1000 200 (by norm_num) s.length s (le_refl _)

set_option maxRecDepth 100000 in
/-- Witness for C2 at a concrete 1200-unit file: the second chunk exists,
equals the window starting at offset 800, and the chunks reassemble to
the file. -/
theorem chunkText_window_overlap_witness :
    (chunkText 1000 200 (List.replicate 1200 'a')).get? 1 =
        some (List.replicate 400 'a') ∧
    ((List.replicate 400 'a').length ≤ 1000 ∧
      List.replicate 400 'a' =
        ((List.replicate 1200 'a').drop (1 * 800)).take 1000 ∧
      reassemble 200 (chunkText 1000 200 (List.replicate 1200 'a')) =
        List.replicate 1200 'a') :=
  ⟨by rfl, chunkText_window_overlap (List.replicate 1200 'a') 1
    (List.replicate 400 'a') (by rfl)⟩

/-! ## Retry wrapper — `backend/utils/create_summary.py` `generateWithGemini`

The decorator (create_summary.py line 12) is
`@retry(wait=wait_random_exponential(min=10, max=60),
stop=stop_after_attempt(4), retry=retry_if_exception_type(Exception))`;
the retry machinery itself (tenacity) is external to the repository. -/

/-- An exception raised by the generation call; every exception type is
eligible for retry (`retry_if_exception_type(Exception)`). -/
inductive GenErr where
  | apiFail
deriving DecidableEq, Repr

/-- One full run of the retried call: the final result, the number of
attempts made, and the total time slept between attempts. -/
structure RetryOutcome where
  result : Except GenErr String
  attempts : Nat
  totalWait : Nat
deriving Repr

/-- Modelled from the spec: the randomized exponential backoff window —
the `n`-th wait is drawn from `[0, waitWindow n]` where the window's
upper end grows exponentially and is clamped between the configured
`min=10` and `max=60`. -/
def waitWindow (n : Nat) : Nat := max 10 (min (2 ^ n) 60)

/-- Modelled from the spec: the bounded retry loop wrapped around the
generation call, unrolled to the configured `stop_after_attempt(4)`.
`call n` is the outcome of the `n`-th attempt (any raised exception is
eligible for retry); `wait n` is the randomized sleep drawn after a
failed `n`-th attempt; exhausting the four attempts surfaces the last
error to the caller. -/
def generateWithGemini (call : Nat → Except GenErr String)
    (wait : Nat → Nat) : RetryOutcome :=
  match call 1 with
  | .ok s => ⟨.ok s, 1, 0⟩
  | .error _ =>
    match call 2 with
    | .ok s => ⟨.ok s, 2, wait 1⟩
    | .error _ =>
      match call 3 with
      | .ok s => ⟨.ok s, 3, wait 1 + wait 2⟩
      | .error _ =>
        match call 4 with
        | .ok s => ⟨.ok s, 4, wait 1 + wait 2 + wait 3⟩
        | .error e => ⟨.error e, 4, wait 1 + wait 2 + wait 3⟩

theorem waitWindow_le_sixty (n : Nat) : waitWindow n ≤ 60 := by
  unfold waitWindow
  exact Nat.max_le.mpr ⟨by norm_num, Nat.min_le_right _ _⟩

/-- C4: a generation call that always fails is attempted exactly the
configured maximum of 4 times; each randomized wait stays inside its
exponential window (clamped at 60), so the total elapsed wait never
exceeds the ceiling `(4 - 1) * 60 = 180` fixed by the configuration; and
exhausting the retries surfaces the error to the caller. -/
theorem generateWithGemini_retry_bound (call : Nat → Except GenErr String)
    (wait : Nat → Nat)
    (hfail : ∀ n, ∃ e, call n = Except.error e)
    (hwait : ∀ n, wait n ≤ waitWindow n) :
    (generateWithGemini call wait).attempts = 4 ∧
    (generateWithGemini call wait).totalWait ≤ 180 ∧
    ∃ e, (generateWithGemini call wait).result = Except.error e := by
  obtain ⟨e1, h1⟩ := hfail 1
  obtain ⟨e2, h2⟩ := hfail 2
  obtain ⟨e3, h3⟩ := hfail 3
  obtain ⟨e4, h4⟩ := hfail 4
  have w1 := le_trans (hwait 1) (waitWindow_le_sixty 1)
  have w2 := le_trans (hwait 2) (waitWindow_le_sixty 2)
  have w3 := le_trans (hwait 3) (waitWindow_le_sixty 3)
  refine ⟨?_, ?_, ⟨e4, ?_⟩⟩ <;> simp only [generateWithGemini, h1, h2, h3, h4]
  omega

/-- Witness for C4: the always-failing call with maximal in-window waits
makes exactly 4 attempts, sleeps at most 180 in total, and ends in an
error. -/
theorem generateWithGemini_retry_bound_witness :
    (generateWithGemini (fun _ => Except.error GenErr.apiFail)
        (fun n => waitWindow n)).attempts = 4 ∧
    (generateWithGemini (fun _ => Except.error GenErr.apiFail)
        (fun n => waitWindow n)).totalWait ≤ 180 ∧
    ∃ e, (generateWithGemini (fun _ => Except.error GenErr.apiFail)
        (fun n => waitWindow n)).result = Except.error e :=
  generateWithGemini_retry_bound _ _ (fun _ => ⟨GenErr.apiFail, rfl⟩)
    (fun _ => le_refl _)

/-! ## JSON values and `json.loads` — used by the quiz paths and the
analyzer's manifest readers.

`json.loads` is Python's standard library; the model below implements a
working subset of its grammar (null, booleans, integer numbers, strings
with one-character escapes, arrays, objects with last-key-wins duplicate
handling), enough to evaluate the repository's quiz and manifest
parsing; on any input outside the subset it reports a parse error, which
the embedded callers treat like a raised `json.JSONDecodeError`. -/

inductive JVal where
  | jnull
  | jbool (b : Bool)
  | jnum (n : Int)
  | jstr (s : String)
  | jarr (items : List JVal)
  | jobj (fields : List (String × JVal))

/-- JSON insignificant whitespace. -/
def isJsonWs (c : Char) : Bool := c = ' ' || c = '\t' || c = '\n' || c = '\u000d'

/-- The opening brace character, `\x7b`. -/
def lbrace : Char := Char.ofNat 123

/-- The closing brace character, `\x7d`. -/
def rbrace : Char := Char.ofNat 125

/-- One-character JSON string escapes. -/
def escChar (c : Char) : Option Char :=
  if c = '"' then some '"'
  else if c = '\\' then some '\\'
  else if c = '/' then some '/'
  else if c = 'n' then some '\n'
  else if c = 't' then some '\t'
  else if c = 'r' then some '\u000d'
  else if c = 'b' then some '\u0008'
  else if c = 'f' then some '\u000c'
  else none

/-- Parse the body of a JSON string after the opening quote; returns the
decoded characters and the input following the closing quote. -/
def parseStrChars : List Char → Option (List Char × List Char)
  | [] => none
  | '"' :: rest => some ([], rest)
  | '\\' :: e :: rest =>
    match escChar e with
    | some c => (parseStrChars rest).map (fun p => (c :: p.1, p.2))
    | none => none
  | c :: rest => (parseStrChars rest).map (fun p => (c :: p.1, p.2))

/-- Parse a JSON integer (optional minus, one or more digits). -/
def parseNum (s : List Char) : Option (JVal × List Char) :=
  match s with
  | '-' :: rest =>
    let ds := rest.takeWhile Char.isDigit
    if ds.isEmpty then none
    else some (.jnum (-(Int.ofNat (String.mk ds).toNat!)), rest.drop ds.length)
  | _ =>
    let ds := s.takeWhile Char.isDigit
    if ds.isEmpty then none
    else some (.jnum (Int.ofNat (String.mk ds).toNat!), s.drop ds.length)

/-- Insert into a Python-dict model: replace an existing key in place,
append a new key (last occurrence wins, first-insertion position kept). -/
def dictInsert (fs : List (String × JVal)) (k : String) (v : JVal) :
    List (String × JVal) :=
  if fs.any (fun p => p.1 = k) then
    fs.map (fun p => if p.1 = k then (k, v) else p)
  else fs ++ [(k, v)]

/-- Element loop of a JSON array, parameterized by the value parser. -/
def parseElemsWith (p : List Char → Option (JVal × List Char)) :
    Nat → List Char → Option (List JVal × List Char)
  | 0, _ => none
  | fuel + 1, s =>
    match s.dropWhile isJsonWs with
    | ']' :: rest => some ([], rest)
    | s1 =>
      match p s1 with
      | none => none
      | some (v, rest) =>
        match rest.dropWhile isJsonWs with
        | ',' :: rest2 =>
          match parseElemsWith p fuel rest2 with
          | some (vs, rest3) => some (v :: vs, rest3)
          | none => none
        | ']' :: rest2 => some ([v], rest2)
        | _ => none

/-- Member loop of a JSON object, parameterized by the value parser;
returns the key/value pairs in source order. -/
def parseFieldsWith (p : List Char → Option (JVal × List Char)) :
    Nat → List Char → Option (List (String × JVal) × List Char)
  | 0, _ => none
  | fuel + 1, s =>
    match s.dropWhile isJsonWs with
    | [] => none
    | c :: rest =>
      if c = rbrace then some ([], rest)
      else if c = '"' then
        match parseStrChars rest with
        | none => none
        | some (key, rest1) =>
          match rest1.dropWhile isJsonWs with
          | ':' :: rest2 =>
            match p rest2 with
            | none => none
            | some (v, rest3) =>
              match rest3.dropWhile isJsonWs with
              | ',' :: rest4 =>
                match parseFieldsWith p fuel rest4 with
                | some (fs, rest5) => some ((String.mk key, v) :: fs, rest5)
                | none => none
              | d :: rest4 =>
                if d = rbrace then some ([(String.mk key, v)], rest4) else none
              | _ => none
          | _ => none
      else none

/-- Parse one JSON value; `depth` bounds the nesting. -/
def parseVal : Nat → List Char → Option (JVal × List Char)
  | 0, _ => none
  | depth + 1, s =>
    match s.dropWhile isJsonWs with
    | [] => none
    | c :: rest =>
      if c = '[' then
        match parseElemsWith (parseVal depth) (rest.length + 1) rest with
        | some (vs, r) => some (.jarr vs, r)
        | none => none
      else if c = lbrace then
        match parseFieldsWith (parseVal depth) (rest.length + 1) rest with
        | some (fs, r) =>
          some (.jobj (fs.foldl (fun acc kv => dictInsert acc kv.1 kv.2) []), r)
        | none => none
      else if c = '"' then
        match parseStrChars rest with
        | some (cs, r) => some (.jstr (String.mk cs), r)
        | none => none
      else if c = 'n' then
        match rest with
        | 'u' :: 'l' :: 'l' :: r => some (.jnull, r)
        | _ => none
      else if c = 't' then
        match rest with
        | 'r' :: 'u' :: 'e' :: r => some (.jbool true, r)
        | _ => none
      else if c = 'f' then
        match rest with
        | 'a' :: 'l' :: 's' :: 'e' :: r => some (.jbool false, r)
        | _ => none
      else parseNum (c :: rest)

/-- The `json.loads`: parse one value and require only whitespace after it. -/
def jsonLoads (s : String) : Option JVal :=
  match parseVal (s.data.length + 1) s.data with
  | some (v, rest) => if (rest.dropWhile isJsonWs).isEmpty then some v else none
  | none => none

/-! ## Quiz parsing — the two quiz-producing paths in `backend/main.py` -/

/-- Look a key up in a parsed JSON object. -/
def jobjGet (fs : List (String × JVal)) (k : String) : Option JVal :=
  (fs.find? (fun p => p.1 = k)).map (fun p => p.2)

/-- The MCQ validity filter of the report-generation path (main.py lines
270-276): the item is a dict holding `question`, `options` and `answer`,
with a list-valued `options` of at least 2 elements. -/
def isValidMcq (v : JVal) : Bool :=
  match v with
  | .jobj fs =>
    fs.any (fun p => p.1 = "question") && fs.any (fun p => p.1 = "options") &&
    fs.any (fun p => p.1 = "answer") &&
    (match jobjGet fs "options" with
     | some (.jarr l) => decide (2 ≤ l.length)
     | _ => false)
  | _ => false

/-- The response cleanup of the report-generation quiz step (main.py
lines 256-260): `strip()`, drop a leading ```` ```json ```` (7
characters), drop a trailing ```` ``` ```` (3 characters). -/
def cleanQuizResponse (raw : String) : String :=
  let r1 := pyStrip raw
  let r2 := if strStartsWith r1 "```json" then String.mk (r1.data.drop 7) else r1
  if strEndsWith r2 "```" then String.mk (r2.data.take (r2.data.length - 3)) else r2

/-- The whole quiz-parsing step of `generate_documentation_enhanced`
(main.py lines 253-282): clean the raw response, `json.loads` it, demand
a list, keep only valid MCQs, truncate to 15; any parse failure (or a
non-list value) yields the empty quiz. -/
def parseMcqsEnhanced (raw : String) : List JVal :=
  match jsonLoads (cleanQuizResponse raw) with
  | none => []
  | some v =>
    match v with
    | .jarr l => (l.filter isValidMcq).take 15
    | _ => []

/-- The quiz parsing of the `generate_mcqs` operation (main.py lines
149-153): `json.loads` of the raw response with NO fence cleanup, NO
item validation and NO truncation; only a total parse failure degrades
to the empty list. -/
def generate_mcqs (raw : String) : JVal :=
  match jsonLoads raw with
  | some v => v
  | none => .jarr []

/-- C3 counterexample: the `generate_mcqs` operation (the getQuiz task)
does NOT drop invalid items — a response that parses to a list holding a
single item with only one option is returned unchanged, invalid item
included, because main.py lines 149-153 only `json.loads` the response
without the fence cleanup, per-item validation or truncation of the
report-generation path. -/
theorem generate_mcqs_keeps_invalid_item :
    generate_mcqs "[\x7b\"question\": \"q\", \"options\": [\"a\"], \"answer\": \"a\"\x7d]" =
      JVal.jarr [JVal.jobj [("question", JVal.jstr "q"),
        ("options", JVal.jarr [JVal.jstr "a"]), ("answer", JVal.jstr "a")]] ∧
    isValidMcq (JVal.jobj [("question", JVal.jstr "q"),
        ("options", JVal.jarr [JVal.jstr "a"]), ("answer", JVal.jstr "a")]) = false :=
  ⟨rfl, rfl⟩

/-- C3 as amended: in the quiz step of report generation
(`generate_documentation_enhanced`), after fence cleanup and strict
parse, every surviving item is a dict with `question`, `options` and
`answer` and a list-valued `options` of at least 2 elements, the result
is truncated to at most 15 items, and a response whose cleaned text
fails to parse yields the empty quiz rather than an error. -/
theorem parseMcqsEnhanced_spec (raw : String) :
    (∀ m ∈ parseMcqsEnhanced raw, isValidMcq m = true) ∧
    (parseMcqsEnhanced raw).length ≤ 15 ∧
    (jsonLoads (cleanQuizResponse raw) = none → parseMcqsEnhanced raw = []) := by
  refine ⟨?_, ?_, ?_⟩
  · intro m hm
    unfold parseMcqsEnhanced at hm
    cases hj : jsonLoads (cleanQuizResponse raw) with
    | none => rw [hj] at hm; simp at hm
    | some v =>
      rw [hj] at hm
      cases v with
      | jnull => simp at hm
      | jbool b => simp at hm
      | jnum n => simp at hm
      | jstr s => simp at hm
      | jarr l => exact List.of_mem_filter (List.mem_of_mem_take hm)
      | jobj fs => simp at hm
  · unfold parseMcqsEnhanced
    cases hj : jsonLoads (cleanQuizResponse raw) with
    | none => simp
    | some v =>
      cases v with
      | jarr l => exact le_trans (List.length_take_le _ _) (by norm_num)
      | jnull => simp
      | jbool b => simp
      | jnum n => simp
      | jstr s => simp
      | jobj fs => simp
  · intro hj
    unfold parseMcqsEnhanced
    rw [hj]

/-- Witness for C3's amended theorem: a concrete fenced response with one
valid item passes the filter, and an unparsable response yields the
empty quiz. -/
theorem parseMcqsEnhanced_spec_witness :
    isValidMcq (JVal.jobj [("question", JVal.jstr "q"),
      ("options", JVal.jarr [JVal.jstr "a", JVal.jstr "b"]),
      ("answer", JVal.jstr "a")]) = true ∧
    parseMcqsEnhanced "oops" = [] := by
  constructor
  · refine (parseMcqsEnhanced_spec
      "```json\n[\x7b\"question\": \"q\", \"options\": [\"a\", \"b\"], \"answer\": \"a\"\x7d]\n```").1
      _ ?_
    rw [show parseMcqsEnhanced
      "```json\n[\x7b\"question\": \"q\", \"options\": [\"a\", \"b\"], \"answer\": \"a\"\x7d]\n```" =
      [JVal.jobj [("question", JVal.jstr "q"),
        ("options", JVal.jarr [JVal.jstr "a", JVal.jstr "b"]),
        ("answer", JVal.jstr "a")]] from rfl]
    exact List.mem_singleton.mpr rfl
  · exact (parseMcqsEnhanced_spec "oops").2.2 (by rfl)

/-! ## Per-file summaries — `backend/utils/create_summary.py` `createSummary` -/

/-- A document handed to `createSummary`: the `source` metadata entry (if
any) and the page content. -/
structure PyDoc where
  source : Option String
  page_content : String
deriving DecidableEq, Repr

/-- The `os.path.basename` (POSIX): the part after the last `/`. -/
def basenameOf (s : String) : String :=
  String.mk ((s.data.reverse.takeWhile (fun c => c ≠ '/')).reverse)

/-- The map key of the `i`-th document (create_summary.py lines 33-34):
`os.path.basename(doc.metadata.get("source", f"File_[i+1]"))`. -/
def docFilename (i : Nat) (d : PyDoc) : String :=
  basenameOf (d.source.getD ("File_" ++ toString (i + 1)))

/-- Observable events of the summary loop: a generation call for the
`i`-th document, or a `time.sleep`. -/
inductive SumEvent where
  | call (i : Nat)
  | sleep (seconds : Nat)
deriving DecidableEq, Repr

/-- Python-dict insert on a string-valued map: replace an existing key in
place, append a new one. -/
def mapInsertStr (m : List (String × String)) (k v : String) :
    List (String × String) :=
  if m.any (fun p => p.1 = k) then
    m.map (fun p => if p.1 = k then (k, v) else p)
  else m ++ [(k, v)]

/-- Python-dict lookup. -/
def lookupStr (m : List (String × String)) (k : String) : Option String :=
  (m.find? (fun p => p.1 = k)).map (fun p => p.2)

/-- The loop of `createSummary` (create_summary.py lines 31-43): for each
document, call the generator; on success store the summary under the
document's basename key and sleep 5 seconds; on any exception print and
skip.  `gen i` is the outcome of the (retried) generation call for the
`i`-th document. -/
def createSummaryGo (gen : Nat → Except GenErr String) :
    List PyDoc → Nat → List (String × String) → List SumEvent →
    List (String × String) × List SumEvent
  | [], _, m, evs => (m, evs)
  | d :: rest, i, m, evs =>
    match gen i with
    | .ok s =>
      createSummaryGo gen rest (i + 1)
        (mapInsertStr m (docFilename i d) s)
        (evs ++ [.call i, .sleep 5])
    | .error _ => createSummaryGo gen rest (i + 1) m (evs ++ [.call i])

/-- The `createSummary` (create_summary.py lines 26-45): returns the
summary map and the observable call/sleep trace. -/
def createSummary (docs : List PyDoc) (gen : Nat → Except GenErr String) :
    List (String × String) × List SumEvent :=
  createSummaryGo gen docs 0 [] []

/-- Claim C7's delay property as stated: between any two successive
generation calls there is a sleep, i.e. no two `call` events are
adjacent in the trace. -/
def noAdjacentCalls : List SumEvent → Bool
  | .call _ :: .call _ :: _ => false
  | _ :: rest => noAdjacentCalls rest
  | [] => true

/-- Scanner for the delay discipline: the flag records whether the
previous event was a successful call, which must be followed
immediately by a 5-second sleep. -/
def sleepScan (gen : Nat → Except GenErr String) :
    Bool → List SumEvent → Bool
  | expecting, [] => !expecting
  | expecting, .sleep n :: rest =>
    if expecting then decide (n = 5) && sleepScan gen false rest
    else sleepScan gen false rest
  | expecting, .call i :: rest =>
    !expecting && sleepScan gen (gen i).isOk rest

/-- The delay discipline the code actually implements: every call whose
generation SUCCEEDS is immediately followed by a 5-second sleep; a
failed call is followed by no sleep. -/
def sleepAfterSuccess (gen : Nat → Except GenErr String)
    (evs : List SumEvent) : Bool :=
  sleepScan gen false evs

/-- C7 counterexample: with two documents and a generator that fails on
the first, the trace is `[call 0, call 1]` — the fixed inter-call delay
is NOT enforced between the two calls, because `time.sleep(5)` sits
inside the `try` after the success path (create_summary.py line 41) and
is skipped when the call raises. -/
theorem createSummary_no_delay_after_failure :
    (createSummary [⟨some "a.py", "c1"⟩, ⟨some "b.py", "c2"⟩]
        (fun _ => Except.error GenErr.apiFail)).2 =
      [SumEvent.call 0, SumEvent.call 1] ∧
    noAdjacentCalls [SumEvent.call 0, SumEvent.call 1] = false :=
  ⟨rfl, rfl⟩

theorem lookupStr_map_replace (k k' v : String) (h : k' ≠ k) :
    ∀ (m : List (String × String)),
      lookupStr (m.map (fun p => if p.1 = k' then (k', v) else p)) k =
        lookupStr m k := by
  intro m
  induction m with
  | nil => rfl
  | cons p rest ih =>
    unfold lookupStr at ih ⊢
    rw [List.map_cons]
    by_cases hp : p.1 = k'
    · rw [if_pos hp]
      rw [List.find?_cons_of_neg _ (by simp [h])]
      rw [List.find?_cons_of_neg _ (by simp [hp, h])]
      exact ih
    · rw [if_neg hp]
      by_cases hpk : p.1 = k
      · rw [List.find?_cons_of_pos _ (by simp [hpk]),
          List.find?_cons_of_pos _ (by simp [hpk])]
      · rw [List.find?_cons_of_neg _ (by simp [hpk]),
          List.find?_cons_of_neg _ (by simp [hpk])]
        exact ih

theorem lookupStr_insert_ne (m : List (String × String)) (k k' v : String)
    (h : k' ≠ k) : lookupStr (mapInsertStr m k' v) k = lookupStr m k := by
  unfold mapInsertStr
  by_cases hany : m.any (fun p => p.1 = k')
  · rw [if_pos hany]
    exact lookupStr_map_replace k k' v h m
  · rw [if_neg hany]
    unfold lookupStr
    rw [List.find?_append]
    have hone : List.find? (fun p => decide (p.1 = k)) [(k', v)] = none := by
      simp [List.find?, h]
    rw [hone]
    simp

theorem lookupStr_map_replace_self (k v : String) :
    ∀ (m : List (String × String)), m.any (fun p => p.1 = k) = true →
      lookupStr (m.map (fun p => if p.1 = k then (k, v) else p)) k = some v := by
  intro m
  induction m with
  | nil => intro hany; simp at hany
  | cons p rest ih =>
    intro hany
    unfold lookupStr at ih ⊢
    rw [List.map_cons]
    by_cases hp : p.1 = k
    · rw [if_pos hp, List.find?_cons_of_pos _ (by simp)]
      rfl
    · rw [if_neg hp, List.find?_cons_of_neg _ (by simp [hp])]
      have hr : rest.any (fun p => p.1 = k) = true := by
        simpa [List.any_cons, hp] using hany
      exact ih hr

theorem lookupStr_insert_self (k v : String) : ∀ (m : List (String × String)),
    lookupStr (mapInsertStr m k v) k = some v := by
  intro m
  unfold mapInsertStr
  by_cases hany : m.any (fun p => p.1 = k)
  · rw [if_pos hany]
    exact lookupStr_map_replace_self k v m hany
  · rw [if_neg hany]
    unfold lookupStr
    rw [List.find?_append]
    have hnone : List.find? (fun p => decide (p.1 = k)) m = none := by
      rw [List.find?_eq_none]
      intro p hp
      simp only [List.any_eq_true] at hany
      simp only [decide_eq_true_eq]
      exact fun he => hany ⟨p, hp, by simp [he]⟩
    rw [hnone]
    simp [List.find?]

theorem keys_mapInsertStr (m : List (String × String)) (k v : String) :
    (mapInsertStr m k v).map Prod.fst =
      if m.any (fun p => p.1 = k) then m.map Prod.fst
      else m.map Prod.fst ++ [k] := by
  unfold mapInsertStr
  by_cases hany : m.any (fun p => p.1 = k)
  · rw [if_pos hany, if_pos hany, List.map_map]
    apply List.map_congr_left
    intro p _
    by_cases hp : p.1 = k
    · simp [hp]
    · simp [hp]
  · rw [if_neg hany, if_neg hany]
    simp

theorem keys_nodup_mapInsertStr (m : List (String × String)) (k v : String)
    (h : (m.map Prod.fst).Nodup) :
    ((mapInsertStr m k v).map Prod.fst).Nodup := by
  rw [keys_mapInsertStr]
  by_cases hany : m.any (fun p => p.1 = k)
  · rw [if_pos hany]; exact h
  · rw [if_neg hany]
    have hk : k ∉ m.map Prod.fst := by
      intro hmem
      obtain ⟨p, hp, hpk⟩ := List.mem_map.mp hmem
      exact hany (List.any_eq_true.mpr ⟨p, hp, by simp [hpk]⟩)
    simp [List.nodup_append, h, hk]

theorem createSummaryGo_trace_mono (gen : Nat → Except GenErr String) :
    ∀ (docs : List PyDoc) (i : Nat) (m : List (String × String))
      (evs : List SumEvent) (e : SumEvent), e ∈ evs →
      e ∈ (createSummaryGo gen docs i m evs).2 := by
  intro docs
  induction docs with
  | nil => intro i m evs e he; simpa [createSummaryGo] using he
  | cons d rest ih =>
    intro i m evs e he
    cases hg : gen i with
    | ok s =>
      simp only [createSummaryGo, hg]
      exact ih _ _ _ _ (List.mem_append_left _ he)
    | error x =>
      simp only [createSummaryGo, hg]
      exact ih _ _ _ _ (List.mem_append_left _ he)

theorem createSummaryGo_calls (gen : Nat → Except GenErr String) :
    ∀ (docs : List PyDoc) (i : Nat) (m : List (String × String))
      (evs : List SumEvent) (j : Nat), j < docs.length →
      SumEvent.call (i + j) ∈ (createSummaryGo gen docs i m evs).2 := by
  intro docs
  induction docs with
  | nil => intro i m evs j hj; simp at hj
  | cons d rest ih =>
    intro i m evs j hj
    cases j with
    | zero =>
      cases hg : gen i with
      | ok s =>
        simp only [createSummaryGo, hg, Nat.add_zero]
        exact createSummaryGo_trace_mono gen _ _ _ _ _ (by simp)
      | error x =>
        simp only [createSummaryGo, hg, Nat.add_zero]
        exact createSummaryGo_trace_mono gen _ _ _ _ _ (by simp)
    | succ jj =>
      have hjj : jj < rest.length := by simpa using hj
      have hidx : i + (jj + 1) = (i + 1) + jj := by omega
      cases hg : gen i with
      | ok s =>
        simp only [createSummaryGo, hg]
        rw [hidx]
        exact ih _ _ _ _ hjj
      | error x =>
        simp only [createSummaryGo, hg]
        rw [hidx]
        exact ih _ _ _ _ hjj

theorem createSummaryGo_lookup_none (gen : Nat → Except GenErr String) :
    ∀ (docs : List PyDoc) (i : Nat) (m : List (String × String))
      (evs : List SumEvent) (k : String),
      (∀ (j : Nat) (hj : j < docs.length),
        docFilename (i + j) (docs.get ⟨j, hj⟩) = k → (gen (i + j)).isOk = false) →
      lookupStr m k = none →
      lookupStr (createSummaryGo gen docs i m evs).1 k = none := by
  intro docs
  induction docs with
  | nil => intro i m evs k hall hm; simpa [createSummaryGo] using hm
  | cons d rest ih =>
    intro i m evs k hall hm
    have hall' : ∀ (j : Nat) (hj : j < rest.length),
        docFilename ((i + 1) + j) (rest.get ⟨j, hj⟩) = k →
        (gen ((i + 1) + j)).isOk = false := by
      intro j hj hk
      have hidx : (i + 1) + j = i + (j + 1) := by omega
      rw [hidx] at hk ⊢
      exact hall (j + 1) (by simpa using hj) (by simpa using hk)
    cases hg : gen i with
    | ok s =>
      have hne : docFilename i d ≠ k := by
        intro he
        have := hall 0 (by simp) (by simpa using he)
        rw [Nat.add_zero, hg] at this
        simp [Except.isOk, Except.toBool] at this
      simp only [createSummaryGo, hg]
      exact ih _ _ _ _ hall' (by rw [lookupStr_insert_ne _ _ _ _ hne]; exact hm)
    | error x =>
      simp only [createSummaryGo, hg]
      exact ih _ _ _ _ hall' hm

theorem createSummaryGo_keys (gen : Nat → Except GenErr String) :
    ∀ (docs : List PyDoc) (i : Nat) (m : List (String × String))
      (evs : List SumEvent) (k : String),
      k ∈ ((createSummaryGo gen docs i m evs).1.map Prod.fst) →
      k ∈ m.map Prod.fst ∨
        ∃ j, ∃ hj : j < docs.length, docFilename (i + j) (docs.get ⟨j, hj⟩) = k := by
  intro docs
  induction docs with
  | nil => intro i m evs k hk; exact Or.inl (by simpa [createSummaryGo] using hk)
  | cons d rest ih =>
    intro i m evs k hk
    have shift : (∃ j, ∃ hj : j < rest.length,
        docFilename ((i + 1) + j) (rest.get ⟨j, hj⟩) = k) →
        ∃ j, ∃ hj : j < (d :: rest).length,
          docFilename (i + j) ((d :: rest).get ⟨j, hj⟩) = k := by
      rintro ⟨j, hj, he⟩
      refine ⟨j + 1, by simpa using hj, ?_⟩
      have hidx : i + (j + 1) = (i + 1) + j := by omega
      rw [hidx]
      simpa using he
    cases hg : gen i with
    | ok s =>
      simp only [createSummaryGo, hg] at hk
      rcases ih _ _ _ _ hk with hin | hex
      · rw [keys_mapInsertStr] at hin
        by_cases hany : m.any (fun p => p.1 = docFilename i d)
        · rw [if_pos hany] at hin
          exact Or.inl hin
        · rw [if_neg hany] at hin
          rcases List.mem_append.mp hin with hin1 | hin1
          · exact Or.inl hin1
          · refine Or.inr ⟨0, by simp, ?_⟩
            rw [Nat.add_zero]
            simpa using (List.mem_singleton.mp hin1).symm
      · exact Or.inr (shift hex)
    | error x =>
      simp only [createSummaryGo, hg] at hk
      rcases ih _ _ _ _ hk with hin | hex
      · exact Or.inl hin
      · exact Or.inr (shift hex)

theorem createSummaryGo_keys_nodup (gen : Nat → Except GenErr String) :
    ∀ (docs : List PyDoc) (i : Nat) (m : List (String × String))
      (evs : List SumEvent), (m.map Prod.fst).Nodup →
      ((createSummaryGo gen docs i m evs).1.map Prod.fst).Nodup := by
  intro docs
  induction docs with
  | nil => intro i m evs hm; simpa [createSummaryGo] using hm
  | cons d rest ih =>
    intro i m evs hm
    cases hg : gen i with
    | ok s =>
      simp only [createSummaryGo, hg]
      exact ih _ _ _ (keys_nodup_mapInsertStr _ _ _ hm)
    | error x =>
      simp only [createSummaryGo, hg]
      exact ih _ _ _ hm

theorem createSummaryGo_sleep (gen : Nat → Except GenErr String) :
    ∀ (docs : List PyDoc) (i : Nat) (m : List (String × String))
      (evs : List SumEvent),
      (∀ tail, sleepAfterSuccess gen (evs ++ tail) = sleepAfterSuccess gen tail) →
      sleepAfterSuccess gen (createSummaryGo gen docs i m evs).2 = true := by
  intro docs
  induction docs with
  | nil =>
    intro i m evs hseg
    have := hseg []
    rw [List.append_nil] at this
    simpa [createSummaryGo, sleepAfterSuccess, sleepScan] using this
  | cons d rest ih =>
    intro i m evs hseg
    cases hg : gen i with
    | ok s =>
      simp only [createSummaryGo, hg]
      apply ih
      intro tail
      unfold sleepAfterSuccess at hseg ⊢
      rw [List.append_assoc, hseg]
      show sleepScan gen false (SumEvent.call i :: SumEvent.sleep 5 :: tail) = _
      simp [sleepScan, hg, Except.isOk, Except.toBool]
    | error x =>
      simp only [createSummaryGo, hg]
      apply ih
      intro tail
      unfold sleepAfterSuccess at hseg ⊢
      rw [List.append_assoc, hseg]
      show sleepScan gen false (SumEvent.call i :: tail) = _
      simp [sleepScan, hg, Except.isOk, Except.toBool]

theorem createSummaryGo_append_single (gen : Nat → Except GenErr String) :
    ∀ (docs : List PyDoc) (d : PyDoc) (i : Nat)
      (m : List (String × String)) (evs : List SumEvent),
      createSummaryGo gen (docs ++ [d]) i m evs =
        createSummaryGo gen [d] (i + docs.length)
          (createSummaryGo gen docs i m evs).1
          (createSummaryGo gen docs i m evs).2 := by
  intro docs
  induction docs with
  | nil => intro d i m evs; rfl
  | cons p rest ih =>
    intro d i m evs
    cases hg : gen i with
    | ok s =>
      have hstep : createSummaryGo gen ((p :: rest) ++ [d]) i m evs =
          createSummaryGo gen (rest ++ [d]) (i + 1)
            (mapInsertStr m (docFilename i p) s)
            (evs ++ [SumEvent.call i, SumEvent.sleep 5]) := by
        simp only [List.cons_append, createSummaryGo, hg]
        rfl
      have hstep2 : createSummaryGo gen (p :: rest) i m evs =
          createSummaryGo gen rest (i + 1)
            (mapInsertStr m (docFilename i p) s)
            (evs ++ [SumEvent.call i, SumEvent.sleep 5]) := by
        simp only [createSummaryGo, hg]
      have hidx : (i + 1) + rest.length = i + (p :: rest).length := by
        simp only [List.length_cons]
        omega
      rw [hstep, ih, hstep2, hidx]
    | error x =>
      have hstep : createSummaryGo gen ((p :: rest) ++ [d]) i m evs =
          createSummaryGo gen (rest ++ [d]) (i + 1) m
            (evs ++ [SumEvent.call i]) := by
        simp only [List.cons_append, createSummaryGo, hg]
        rfl
      have hstep2 : createSummaryGo gen (p :: rest) i m evs =
          createSummaryGo gen rest (i + 1) m (evs ++ [SumEvent.call i]) := by
        simp only [createSummaryGo, hg]
      have hidx : (i + 1) + rest.length = i + (p :: rest).length := by
        simp only [List.length_cons]
        omega
      rw [hstep, ih, hstep2, hidx]

/-- C7 as amended: every per-file generation failure is caught locally —
the batch goes on to call the generator for every document and the
failed file's key is simply absent from the returned SummaryMap — and
the fixed 5-second delay is enforced after every SUCCESSFUL summary
call (not between a failed call and the next one: `time.sleep(5)` sits
after the success path inside the `try`). -/
theorem createSummary_batch (docs : List PyDoc)
    (gen : Nat → Except GenErr String) :
    (∀ j, j < docs.length → SumEvent.call j ∈ (createSummary docs gen).2) ∧
    (∀ k, (∀ (j : Nat) (hj : j < docs.length),
        docFilename j (docs.get ⟨j, hj⟩) = k → (gen j).isOk = false) →
      lookupStr (createSummary docs gen).1 k = none) ∧
    sleepAfterSuccess gen (createSummary docs gen).2 = true := by
  refine ⟨?_, ?_, ?_⟩
  · intro j hj
    have := createSummaryGo_calls gen docs 0 [] [] j hj
    simpa using this
  · intro k hall
    apply createSummaryGo_lookup_none gen docs 0 [] [] k
    · intro j hj hk
      rw [Nat.zero_add]
      rw [Nat.zero_add] at hk
      exact hall j hj hk
    · rfl
  · apply createSummaryGo_sleep
    intro tail
    rfl

/-- Witness for C7's amended theorem: two documents, generation failing
on the first and succeeding on the second — both calls happen, the
failed file's basename is absent from the map, and the delay discipline
holds on the trace. -/
theorem createSummary_batch_witness :
    SumEvent.call 0 ∈ (createSummary
      [⟨some "a/x.py", "c1"⟩, ⟨some "b/y.py", "c2"⟩]
      (fun n => if n = 0 then Except.error GenErr.apiFail
        else Except.ok "s")).2 ∧
    lookupStr (createSummary
      [⟨some "a/x.py", "c1"⟩, ⟨some "b/y.py", "c2"⟩]
      (fun n => if n = 0 then Except.error GenErr.apiFail
        else Except.ok "s")).1 "x.py" = none ∧
    sleepAfterSuccess
      (fun n => if n = 0 then Except.error GenErr.apiFail
        else Except.ok "s")
      (createSummary [⟨some "a/x.py", "c1"⟩, ⟨some "b/y.py", "c2"⟩]
        (fun n => if n = 0 then Except.error GenErr.apiFail
          else Except.ok "s")).2 = true := by
  refine ⟨(createSummary_batch _ _).1 0 (by norm_num),
    (createSummary_batch _ _).2.1 "x.py" ?_, (createSummary_batch _ _).2.2⟩
  intro j hj hk
  have hj2 : j < 2 := by simpa using hj
  interval_cases j
  · decide
  · exact absurd hk
      (show ¬ docFilename 1 ⟨some "b/y.py", "c2"⟩ = "x.py" by decide)

/-- C10: the SummaryMap is keyed by the base filename of each document's
source path — every key is the basename of some document, the map holds
at most one entry per basename, and when a later document shares a
basename with an earlier one, the later successful summary overwrites:
appending a document whose generation succeeds makes its basename map to
its own summary. -/
theorem createSummary_basename_overwrite (docs : List PyDoc)
    (gen : Nat → Except GenErr String) (d : PyDoc) (s : String)
    (hgen : gen docs.length = Except.ok s) :
    (∀ k, k ∈ ((createSummary docs gen).1.map Prod.fst) →
      ∃ j, ∃ hj : j < docs.length, docFilename j (docs.get ⟨j, hj⟩) = k) ∧
    ((createSummary docs gen).1.map Prod.fst).Nodup ∧
    lookupStr (createSummary (docs ++ [d]) gen).1
      (docFilename docs.length d) = some s := by
  refine ⟨?_, ?_, ?_⟩
  · intro k hk
    rcases createSummaryGo_keys gen docs 0 [] [] k hk with hin | ⟨j, hj, he⟩
    · simp at hin
    · exact ⟨j, hj, by simpa using he⟩
  · exact createSummaryGo_keys_nodup gen docs 0 [] [] (by simp)
  · unfold createSummary
    rw [createSummaryGo_append_single]
    have h0 : (0 : Nat) + docs.length = docs.length := Nat.zero_add _
    rw [h0]
    simp only [createSummaryGo, hgen]
    exact lookupStr_insert_self _ _ _

/-- Witness for C10: two documents named `x.py` in different
directories; the map sends `x.py` to the summary of the second
(later-processed) one. -/
theorem createSummary_basename_overwrite_witness :
    lookupStr (createSummary
        ([⟨some "a/x.py", "c1"⟩] ++ [⟨some "b/x.py", "c2"⟩])
        (fun n => Except.ok ("s" ++ toString n))).1
      (docFilename 1 ⟨some "b/x.py", "c2"⟩) = some "s1" :=
  (createSummary_basename_overwrite [⟨some "a/x.py", "c1"⟩] _
    ⟨some "b/x.py", "c2"⟩ "s1" (by rfl)).2.2

/-! ## Project analyzer — `backend/utils/pdf_generator.py`
`EnhancedDocumentationGenerator`

The analyzer walks the extracted tree; the tree is modelled flat (files
in walk order with their paths relative to the extraction root, plus the
relative paths of existing directories), file reads go through a
`ReadOracle` and `os.path.getsize` through a `SizeOracle`, both failing
with a raised exception modelled as `Except.error ()`. -/

/-- A file seen by `os.walk`: its path relative to `extract_dir` and its
bare name. -/
structure AFile where
  rel : String
  name : String
deriving DecidableEq, Repr

/-- The extracted tree as the analyzer sees it. -/
structure ATree where
  rootName : String
  dirs : List String
  files : List AFile
deriving DecidableEq, Repr

/-- The `open(file_path).read()`, keyed by path relative to the root. -/
abbrev ReadOracle := String → Py String

/-- The `os.path.getsize`, keyed by path relative to the root. -/
abbrev SizeOracle := String → Py Nat

/-- The `os.path.exists(os.path.join(extract_dir, p))`. -/
def pathExists (t : ATree) (p : String) : Bool :=
  t.dirs.contains p || t.files.any (fun f => f.rel = p)

/-- Contiguous-sublist test on character lists. -/
def listContainsSub (sub : List Char) : List Char → Bool
  | [] => sub.isEmpty
  | c :: rest => sub.isPrefixOf (c :: rest) || listContainsSub sub rest

/-- Python `sub in s` substring test. -/
def strContains (s sub : String) : Bool := listContainsSub sub.data s.data

/-- Python `str.upper()` (per-character, ASCII). -/
def upperStr (s : String) : String := String.mk (s.data.map Char.toUpper)

/-! ### The regex subset used by the analyzer's patterns

The five patterns scanned by the analyzer are implemented directly:
non-overlapping left-to-right matches, leftmost alternation, greedy
character classes, `.` not crossing newlines. -/

/-- The `["\']` — a quote character. -/
def isQuoteChar (c : Char) : Bool := c = '"' || c = '\''

/-- The `\w` — a word character. -/
def isWordChar (c : Char) : Bool := c.isAlphanum || c = '_'

/-- The `\s` — regex whitespace. -/
def isReWs (c : Char) : Bool :=
  c = ' ' || c = '\t' || c = '\n' || c = '\u000d' || c = '\u000b' || c = '\u000c'

/-- Match a literal case-sensitively; return the remaining input. -/
def stripLit : List Char → List Char → Option (List Char)
  | [], s => some s
  | _ :: _, [] => none
  | c :: cs, d :: ds => if c = d then stripLit cs ds else none

/-- Match a literal case-insensitively (`re.IGNORECASE`); return the
remaining input. -/
def stripLitCi : List Char → List Char → Option (List Char)
  | [], s => some s
  | _ :: _, [] => none
  | c :: cs, d :: ds => if c.toLower = d.toLower then stripLitCi cs ds else none

/-- Match a literal case-insensitively, returning the ACTUAL matched
input characters (the group text under `re.IGNORECASE`) and the rest. -/
def takeLitCi : List Char → List Char → Option (List Char × List Char)
  | [], s => some ([], s)
  | _ :: _, [] => none
  | c :: cs, d :: ds =>
    if c.toLower = d.toLower then
      (takeLitCi cs ds).map (fun p => (d :: p.1, p.2))
    else none

/-- The `["\']([^"\']+)["\']` — a quote, a nonempty run of non-quote
characters (the group), a quote. -/
def matchQuoted : List Char → Option (List Char × List Char)
  | [] => none
  | c :: rest =>
    if isQuoteChar c then
      let body := rest.takeWhile (fun d => !isQuoteChar d)
      if body.isEmpty then none
      else
        match rest.drop body.length with
        | d :: rest2 => if isQuoteChar d then some (body, rest2) else none
        | [] => none
    else none

/-- The `(get|post|put|delete|patch)` — the method alternation of the
first two `api_patterns` (pdf_generator.py lines 399-400). -/
def routeMethods : List String := ["get", "post", "put", "delete", "patch"]

/-- Try one method word followed by `\(` and the quoted path group. -/
def tryMethodWord (w : List Char) (s : List Char) :
    Option (List Char × List Char × List Char) :=
  match takeLitCi w s with
  | some (actual, '(' :: r1) =>
    (matchQuoted r1).map (fun p => (actual, p.1, p.2))
  | _ => none

/-- Leftmost alternation over the method words. -/
def firstMethodWord : List String → List Char →
    Option (List Char × List Char × List Char)
  | [], _ => none
  | w :: ws, s =>
    match tryMethodWord w.data s with
    | some r => some r
    | none => firstMethodWord ws s

/-- One attempted match of a decorator pattern
`PRE(get|post|put|delete|patch)\(["\']([^"\']+)["\']` at the head of the
input; returns the two groups and the input after the match. -/
def matchDecorAt (pre : List Char) (s : List Char) :
    Option ((List Char × List Char) × List Char) :=
  match stripLitCi pre s with
  | some r1 => (firstMethodWord routeMethods r1).map (fun r => ((r.1, r.2.1), r.2.2))
  | none => none

/-- Generic `re.findall` for a two-group matcher: scan left to right,
emit each match's groups, resume after the match. -/
def findallWith2
    (matcher : List Char → Option ((List Char × List Char) × List Char)) :
    Nat → List Char → List (List Char × List Char)
  | 0, _ => []
  | _ + 1, [] => []
  | fuel + 1, c :: rest =>
    match matcher (c :: rest) with
    | some (g, r) => g :: findallWith2 matcher fuel r
    | none => findallWith2 matcher fuel rest

/-- Generic `re.findall` for a one-group matcher. -/
def findallWith (matcher : List Char → Option (List Char × List Char)) :
    Nat → List Char → List (List Char)
  | 0, _ => []
  | _ + 1, [] => []
  | fuel + 1, c :: rest =>
    match matcher (c :: rest) with
    | some (g, r) => g :: findallWith matcher fuel r
    | none => findallWith matcher fuel rest

/-- The bracketed methods list of the third pattern: `methods=\[([^\]]+)\]`
attempted at offset `k` of the input. -/
def tryMethodsAt (rest : List Char) (k : Nat) : Option (List Char × List Char) :=
  match stripLitCi "methods=[".data (rest.drop k) with
  | some rem =>
    let body := rem.takeWhile (fun c => c ≠ ']')
    if body.isEmpty then none
    else
      match rem.drop body.length with
      | ']' :: tail => some (body, tail)
      | _ => none
  | none => none

/-- First hit over candidate offsets. -/
def firstHitAt (f : Nat → Option (List Char × List Char)) :
    List Nat → Option (List Char × List Char)
  | [] => none
  | k :: ks =>
    match f k with
    | some r => some r
    | none => firstHitAt f ks

/-- One attempted match of the third pattern
`app\.route\(["\']([^"\']+)["\'].*methods=\[([^\]]+)\]` at the head of
the input: the greedy `.*` (which cannot cross a newline) selects the
LAST `methods=[` on the closing quote's line whose bracket closes. -/
def matchRouteAt (s : List Char) : Option ((List Char × List Char) × List Char) :=
  match stripLitCi "app.route(".data s with
  | none => none
  | some r1 =>
    match matchQuoted r1 with
    | none => none
    | some (path, rest) =>
      let line := rest.takeWhile (fun c => c ≠ '\n')
      match firstHitAt (tryMethodsAt rest) (List.range (line.length + 1)).reverse with
      | some (body, tail) => some ((path, body), tail)
      | none => none

/-- One discovered endpoint record (pdf_generator.py lines 417-421). -/
structure Endpoint where
  method : String
  endpoint : String
  file : String
deriving DecidableEq, Repr

/-- All matches of the three `api_patterns` in one file's content, in
pattern order then text order, with the code's uniform
`method, endpoint = match` destructuring (pdf_generator.py line 416) —
note that for the third pattern the captured pair is
(path, methods-text), so the recorded `method` is the uppercased path
and the `endpoint` is the raw bracket text. -/
def fileEndpoints (relp : String) (content : String) : List Endpoint :=
  let n := content.data.length + 1
  let p1 := findallWith2 (matchDecorAt "@app.".data) n content.data
  let p2 := findallWith2 (matchDecorAt "@router.".data) n content.data
  let p3 := findallWith2 matchRouteAt n content.data
  (p1 ++ p2 ++ p3).map (fun mp =>
    { method := upperStr (String.mk mp.1), endpoint := String.mk mp.2, file := relp })

/-- The `extract_api_endpoints` (pdf_generator.py lines 393-425): scan every
`.py` file; a file whose read (or scan) raises contributes nothing;
matches are appended in discovery order and never deduplicated. -/
def extract_api_endpoints (t : ATree) (rd : ReadOracle) : List Endpoint :=
  t.files.foldl (fun acc f =>
    if strEndsWith f.name ".py" then
      acc ++ pyTry (do
        let content ← rd f.rel
        pure (fileEndpoints f.rel content)) []
    else acc) []

/-- C8: for a tree holding exactly one source file, the endpoint
detector returns exactly one record per pattern match, in discovery
order and without deduplication: each decorator match `(method, path)`
becomes `{method.upper(), path, file}`.  With exactly one `GET /items`
declaration the result is exactly
`[{method := GET, endpoint := /items, file}]`; with the same declaration
matched twice, both identical records are retained. -/
theorem extract_api_endpoints_single (rootName : String) (ds : List String)
    (f : AFile) (rd : ReadOracle) (c : String)
    (ms : List (List Char × List Char))
    (hpy : strEndsWith f.name ".py" = true)
    (hrd : rd f.rel = Except.ok c)
    (h1 : findallWith2 (matchDecorAt "@app.".data) (c.data.length + 1) c.data = ms)
    (h2 : findallWith2 (matchDecorAt "@router.".data) (c.data.length + 1) c.data = [])
    (h3 : findallWith2 matchRouteAt (c.data.length + 1) c.data = []) :
    extract_api_endpoints ⟨rootName, ds, [f]⟩ rd =
      ms.map (fun mp =>
        { method := upperStr (String.mk mp.1), endpoint := String.mk mp.2,
          file := f.rel }) := by
  unfold extract_api_endpoints
  simp only [List.foldl_cons, List.foldl_nil, hpy, if_true]
  unfold pyTry
  rw [show (do
      let content ← rd f.rel
      pure (fileEndpoints f.rel content) : Py (List Endpoint)) =
    Except.ok (fileEndpoints f.rel c) by rw [hrd]; rfl]
  unfold fileEndpoints
  simp only [String.length_data] at h1 h2 h3 ⊢
  simp [h1, h2, h3]

/-- Witness for C8: a one-file tree whose content declares `GET /items`
once yields exactly one endpoint record; declared twice, the duplicate
is retained. -/
theorem extract_api_endpoints_single_witness :
    extract_api_endpoints
      ⟨"proj", [], [⟨"api/app.py", "app.py"⟩]⟩
      (fun p => if p = "api/app.py"
        then Except.ok "@app.get(\"/items\")\ndef items():\n    return []\n"
        else Except.error ()) =
      [{ method := "GET", endpoint := "/items", file := "api/app.py" }] ∧
    extract_api_endpoints
      ⟨"proj", [], [⟨"d.py", "d.py"⟩]⟩
      (fun p => if p = "d.py"
        then Except.ok "@app.get(\"/items\")\n@app.get(\"/items\")\n"
        else Except.error ()) =
      [{ method := "GET", endpoint := "/items", file := "d.py" },
       { method := "GET", endpoint := "/items", file := "d.py" }] := by
  constructor
  · exact extract_api_endpoints_single "proj" [] _ _ _
      [("get".data, "/items".data)] (by rfl) (by rfl) (by rfl) (by rfl) (by rfl)
  · exact extract_api_endpoints_single "proj" [] _ _ _
      [("get".data, "/items".data), ("get".data, "/items".data)]
      (by rfl) (by rfl) (by rfl) (by rfl) (by rfl)

/-! ### The analyzer's detectors -/

/-- Python `str.split(c)` on a character list. -/
def splitOnChar (c : Char) : List Char → List (List Char)
  | [] => [[]]
  | d :: rest =>
    match splitOnChar c rest with
    | [] => [[d]]
    | g :: gs => if d = c then [] :: g :: gs else (d :: g) :: gs

/-- The `os.path.splitext(name)[1]`: the extension from the last dot, empty
when there is no dot or only leading dots precede it. -/
def splitextExt (name : String) : String :=
  let cs := name.data
  let extRev := cs.reverse.takeWhile (fun c => c ≠ '.')
  if extRev.length = cs.length then ""
  else
    let stem := cs.take (cs.length - extRev.length - 1)
    if stem.all (fun c => c = '.') then ""
    else String.mk ('.' :: extRev.reverse)

/-- The JSON field fallback used by `extract_project_info`: a present
string value, otherwise the default (non-string manifest values are
modelled as falling back to the default). -/
def jStrD (v : Option JVal) (d : String) : String :=
  match v with
  | some (.jstr s) => s
  | _ => d

/-- The `info` record of `extract_project_info` (pdf_generator.py 131-181). -/
structure ProjectInfo where
  name : String
  description : String
  version : String
  author : String
  license : String
  repository : String
  main_language : String
  framework : String
deriving DecidableEq, Repr

/-- The README candidates (pdf_generator.py line 163). -/
def readmeFiles : List String := ["README.md", "README.rst", "README.txt", "readme.md"]

/-- The `extract_project_info` (pdf_generator.py lines 131-181): defaults,
optionally overridden from a parsed `package.json` (any read/parse/shape
error is swallowed), then a description taken from the first existing
README's first non-title line (errors swallowed; the loop breaks at the
first existing README either way). -/
def extract_project_info (t : ATree) (rd : ReadOracle) : ProjectInfo :=
  let base : ProjectInfo :=
    ⟨t.rootName, "", "1.0.0", "", "", "", "", ""⟩
  let info1 :=
    if pathExists t "package.json" then
      pyTry (do
        let c ← rd "package.json"
        match jsonLoads c with
        | none => Except.error ()
        | some v =>
          match v with
          | .jobj fs =>
            pure { base with
              name := jStrD (jobjGet fs "name") base.name
              description := jStrD (jobjGet fs "description") ""
              version := jStrD (jobjGet fs "version") "1.0.0"
              author := jStrD (jobjGet fs "author") ""
              license := jStrD (jobjGet fs "license") ""
              repository :=
                match jobjGet fs "repository" with
                | some (.jobj rf) => jStrD (jobjGet rf "url") ""
                | some (.jstr s) => s
                | _ => ""
              main_language := "JavaScript/TypeScript" }
          | _ => Except.error ()) base
    else base
  match readmeFiles.find? (fun r => pathExists t r) with
  | none => info1
  | some r =>
    pyTry (do
      let c ← rd r
      let content := String.mk (c.data.take 1000)
      if info1.description = "" then
        match ((splitOnChar '\n' content.data).drop 1).find? (fun l =>
            !(pyStrip (String.mk l)).isEmpty &&
            !(strStartsWith (String.mk l) "#")) with
        | some l => pure { info1 with description := pyStrip (String.mk l) }
        | none => pure info1
      else pure info1) info1

/-- The `tech_stack` sets (pdf_generator.py 185-191), modelled as
insertion-ordered duplicate-free lists. -/
structure TechStack where
  languages : List String
  frameworks : List String
  databases : List String
  tools : List String
  cloud_services : List String
deriving DecidableEq, Repr

/-- Python `set.add`. -/
def setAdd (l : List String) (x : String) : List String :=
  if l.contains x then l else l ++ [x]

/-- The `framework_map` of `_analyze_python_dependencies`
(pdf_generator.py 245-259). -/
def pythonFrameworkMap : List (String × String) := [
  ("django", "Django"), ("flask", "Flask"), ("fastapi", "FastAPI"),
  ("tornado", "Tornado"), ("pyramid", "Pyramid"), ("numpy", "NumPy"),
  ("pandas", "Pandas"), ("matplotlib", "Matplotlib"), ("seaborn", "Seaborn"),
  ("scikit-learn", "Scikit-learn"), ("tensorflow", "TensorFlow"),
  ("torch", "PyTorch"), ("keras", "Keras")]

/-- The `db_map` of `_analyze_python_dependencies` (pdf_generator.py 261-267). -/
def pythonDbMap : List (String × String) := [
  ("psycopg2", "PostgreSQL"), ("pymongo", "MongoDB"), ("redis", "Redis"),
  ("sqlalchemy", "SQLAlchemy"), ("mysql", "MySQL")]

/-- The `framework_map` of `_analyze_node_dependencies`
(pdf_generator.py 291-300). -/
def nodeFrameworkMap : List (String × String) := [
  ("react", "React"), ("vue", "Vue.js"), ("angular", "Angular"),
  ("express", "Express.js"), ("next", "Next.js"), ("nuxt", "Nuxt.js"),
  ("gatsby", "Gatsby"), ("svelte", "Svelte")]

/-- The `_analyze_python_dependencies` (pdf_generator.py 243-281):
case-insensitive substring scan of a manifest's text; read errors leave
the stack unchanged. -/
def analyzePythonDeps (rd : ReadOracle) (relp : String) (ts : TechStack) :
    TechStack :=
  pyTry (do
    let c ← rd relp
    let content := lowerStr c
    let fw := pythonFrameworkMap.foldl (fun acc kv =>
      if strContains content kv.1 then setAdd acc kv.2 else acc) ts.frameworks
    let db := pythonDbMap.foldl (fun acc kv =>
      if strContains content kv.1 then setAdd acc kv.2 else acc) ts.databases
    pure { ts with frameworks := fw, databases := db }) ts

/-- The merged `{**dependencies, **devDependencies}` key list; a present
non-dict value raises (caught by the caller's `try`). -/
def mergedDepKeys (fs : List (String × JVal)) : Py (List String) :=
  match jobjGet fs "dependencies", jobjGet fs "devDependencies" with
  | some (.jobj d1), some (.jobj d2) =>
    pure ((d1.map Prod.fst) ++
      (d2.map Prod.fst).filter (fun k => !(d1.map Prod.fst).contains k))
  | some (.jobj d1), none => pure (d1.map Prod.fst)
  | none, some (.jobj d2) => pure (d2.map Prod.fst)
  | none, none => pure []
  | _, _ => Except.error ()

/-- The `_analyze_node_dependencies` (pdf_generator.py 283-307): parse
`package.json`, scan each dependency name for the framework keywords;
any error leaves the stack unchanged. -/
def analyzeNodeDeps (rd : ReadOracle) (relp : String) (ts : TechStack) :
    TechStack :=
  pyTry (do
    let c ← rd relp
    match jsonLoads c with
    | none => Except.error ()
    | some (.jobj fs) => do
      let deps ← mergedDepKeys fs
      let fw := deps.foldl (fun acc dep =>
        nodeFrameworkMap.foldl (fun acc2 kv =>
          if strContains (lowerStr dep) kv.1 then setAdd acc2 kv.2 else acc2)
          acc) ts.frameworks
      pure { ts with frameworks := fw }
    | some _ => Except.error ()) ts

/-- The Python manifest candidates (pdf_generator.py line 232). -/
def requirementsFiles : List String := ["requirements.txt", "Pipfile", "pyproject.toml"]

/-- The `_detect_frameworks_and_libraries` (pdf_generator.py 229-241). -/
def detectFrameworksAndLibraries (t : ATree) (rd : ReadOracle)
    (ts : TechStack) : TechStack :=
  let ts1 := requirementsFiles.foldl (fun acc rf =>
    if pathExists t rf then analyzePythonDeps rd rf acc else acc) ts
  if pathExists t "package.json" then analyzeNodeDeps rd "package.json" ts1
  else ts1

/-- The `analyze_tech_stack` (pdf_generator.py 183-227): language detection
by extension switch, then framework/database detection from manifests. -/
def analyze_tech_stack (t : ATree) (rd : ReadOracle) : TechStack :=
  let langs := t.files.foldl (fun acc f =>
    let ext := lowerStr (splitextExt f.name)
    if ext = ".py" then setAdd acc "Python"
    else if ext = ".js" || ext = ".jsx" then setAdd acc "JavaScript"
    else if ext = ".ts" || ext = ".tsx" then setAdd acc "TypeScript"
    else if ext = ".java" then setAdd acc "Java"
    else if ext = ".cpp" || ext = ".cc" || ext = ".cxx" then setAdd acc "C++"
    else if ext = ".c" then setAdd acc "C"
    else if ext = ".cs" then setAdd acc "C#"
    else if ext = ".go" then setAdd acc "Go"
    else if ext = ".rs" then setAdd acc "Rust"
    else if ext = ".php" then setAdd acc "PHP"
    else if ext = ".rb" then setAdd acc "Ruby"
    else acc) []
  detectFrameworksAndLibraries t rd ⟨langs, [], [], [], []⟩

/-- A `largest_files` entry (pdf_generator.py 339-343). -/
structure LargeFile where
  path : String
  lines : Nat
  size : Nat
deriving DecidableEq, Repr

/-- The `structure` dict of `analyze_file_structure`; the always-empty
`directory_structure` and `complexity_analysis` entries are omitted. -/
structure FileStructure where
  total_files : Nat
  total_lines : Nat
  file_types : List (String × Nat)
  largest_files : List LargeFile
deriving DecidableEq, Repr

/-- The `collections.Counter` increment, first-insertion order kept. -/
def counterAdd (c : List (String × Nat)) (k : String) : List (String × Nat) :=
  if c.any (fun p => p.1 = k) then
    c.map (fun p => if p.1 = k then (p.1, p.2 + 1) else p)
  else c ++ [(k, 1)]

/-- The `len(f.readlines())`. -/
def countPyLines (content : String) : Nat :=
  match content.data with
  | [] => 0
  | cs => cs.count '\n' + (if cs.getLast? = some '\n' then 0 else 1)

/-- The `analyze_file_structure` (pdf_generator.py 309-351): totals, a
per-extension Counter, and the ten largest files by size.  Inside the
per-file `try`, `total_lines` is increased BEFORE `os.path.getsize`
runs, so a size failure keeps the line count but drops the
`largest_files` entry — modelled by sequencing the two oracle calls. -/
def analyze_file_structure (t : ATree) (rd : ReadOracle) (sz : SizeOracle) :
    FileStructure :=
  let st := t.files.foldl
    (fun (acc : Nat × Nat × List (String × Nat) × List LargeFile) f =>
      let tf := acc.1 + 1
      let types := counterAdd acc.2.2.1 (lowerStr (splitextExt f.name))
      match rd f.rel with
      | .error _ => (tf, acc.2.1, types, acc.2.2.2)
      | .ok c =>
        let lc := countPyLines c
        match sz f.rel with
        | .error _ => (tf, acc.2.1 + lc, types, acc.2.2.2)
        | .ok fsz => (tf, acc.2.1 + lc, types, acc.2.2.2 ++ [⟨f.rel, lc, fsz⟩]))
    (0, 0, [], [])
  { total_files := st.1
    total_lines := st.2.1
    file_types := st.2.2.1
    largest_files := (st.2.2.2.mergeSort (fun a b => decide (b.size ≤ a.size))).take 10 }

/-- The `pkg_name` extraction (pdf_generator.py line 372):
`re.split(r'[>=<!=]', line)[0].strip()`. -/
def pyDepName (line : String) : String :=
  pyStrip (String.mk (line.data.takeWhile (fun c =>
    !(c = '>' || c = '=' || c = '<' || c = '!'))))

/-- The `analyze_dependencies` (pdf_generator.py 353-391): per existing
manifest, the package names of its non-comment non-blank lines (read
errors give that manifest an empty list); for `package.json`, the
concatenated dependency and devDependency keys. -/
def analyze_dependencies (t : ATree) (rd : ReadOracle) :
    List (String × List String) :=
  let deps1 := requirementsFiles.foldl (fun acc rf =>
    if pathExists t rf then
      acc ++ [(rf, pyTry (do
        let c ← rd rf
        pure (((splitOnChar '\n' c.data).map String.mk).foldl (fun ds line =>
          let line := pyStrip line
          if !line.isEmpty && !(strStartsWith line "#") then
            let pkg := pyDepName line
            if !pkg.isEmpty then ds ++ [pkg] else ds
          else ds) [])) [])]
    else acc) []
  if pathExists t "package.json" then
    deps1 ++ [("package.json", pyTry (do
      let c ← rd "package.json"
      match jsonLoads c with
      | none => Except.error ()
      | some (.jobj fs) =>
        match jobjGet fs "dependencies", jobjGet fs "devDependencies" with
        | some (.jobj d1), some (.jobj d2) =>
          pure (d1.map Prod.fst ++ d2.map Prod.fst)
        | some (.jobj d1), none => pure (d1.map Prod.fst)
        | none, some (.jobj d2) => pure (d2.map Prod.fst)
        | none, none => pure []
        | _, _ => Except.error ()
      | some _ => Except.error ()) [])]
  else deps1

/-- The `CREATE TABLE\s+(\w+)` (IGNORECASE) attempted at the head. -/
def matchCreateTable (s : List Char) : Option (List Char × List Char) :=
  match stripLitCi "create table".data s with
  | none => none
  | some r1 =>
    let ws := r1.takeWhile isReWs
    if ws.isEmpty then none
    else
      let r2 := r1.drop ws.length
      let w := r2.takeWhile isWordChar
      if w.isEmpty then none else some (w, r2.drop w.length)

/-- Index of the last `:` of a line, if any. -/
def lastColonIdx (line : List Char) : Option Nat :=
  let tailRun := line.reverse.takeWhile (fun c => c ≠ ':')
  if tailRun.length = line.length then none
  else some (line.length - tailRun.length - 1)

/-- The `class\s+(\w+).*:` (case-sensitive) attempted at the head: the
greedy `.*:` requires a `:` later on the word's line and the match ends
after the LAST such colon. -/
def matchClassDecl (s : List Char) : Option (List Char × List Char) :=
  match stripLit "class".data s with
  | none => none
  | some r1 =>
    let ws := r1.takeWhile isReWs
    if ws.isEmpty then none
    else
      let r2 := r1.drop ws.length
      let w := r2.takeWhile isWordChar
      if w.isEmpty then none
      else
        let r3 := r2.drop w.length
        let line := r3.takeWhile (fun c => c ≠ '\n')
        match lastColonIdx line with
        | some k => some (w, r3.drop (k + 1))
        | none => none

/-- The `schema_info` dict (pdf_generator.py 429-433). -/
structure SchemaInfo where
  models : List String
  tables : List String
  relationships : List String
deriving DecidableEq, Repr

/-- The `analyze_database_schema` (pdf_generator.py 427-467): table names
from `CREATE TABLE` statements of `.sql` files, then class names from
`.py` files whose name contains `model` or `schema`; per-file errors
skip that file. -/
def analyze_database_schema (t : ATree) (rd : ReadOracle) : SchemaInfo :=
  let tables := t.files.foldl (fun acc f =>
    if strEndsWith f.name ".sql" then
      acc ++ pyTry (do
        let c ← rd f.rel
        pure ((findallWith matchCreateTable (c.data.length + 1) c.data).map
          String.mk)) []
    else acc) []
  let models := t.files.foldl (fun acc f =>
    if strEndsWith f.name ".py" &&
        (strContains (lowerStr f.name) "model" ||
         strContains (lowerStr f.name) "schema") then
      acc ++ pyTry (do
        let c ← rd f.rel
        pure ((findallWith matchClassDecl (c.data.length + 1) c.data).map
          String.mk)) []
    else acc) []
  ⟨models, tables, []⟩

/-- The `os\.(?:environ\.get|getenv)\(["\']([^"\']+)["\']` (case-sensitive)
attempted at the head. -/
def matchEnvCall (s : List Char) : Option (List Char × List Char) :=
  match stripLit "os.".data s with
  | none => none
  | some r1 =>
    let alt :=
      match stripLit "environ.get".data r1 with
      | some r => some r
      | none => stripLit "getenv".data r1
    match alt with
    | some ('(' :: r2) => matchQuoted r2
    | _ => none

/-- The `process\.env\.(\w+)` (case-sensitive) attempted at the head. -/
def matchProcEnv (s : List Char) : Option (List Char × List Char) :=
  match stripLit "process.env.".data s with
  | none => none
  | some r1 =>
    let w := r1.takeWhile isWordChar
    if w.isEmpty then none else some (w, r1.drop w.length)

/-- The environment-file candidates (pdf_generator.py line 474). -/
def envFileNames : List String := [".env", ".env.example", ".env.local", ".env.production"]

/-- The `extract_environment_variables` (pdf_generator.py 469-509): key
names of `key=value` lines in environment files, plus names captured by
the two access patterns in `.py`/`.js`/`.ts` sources; the union is
returned sorted. -/
def extract_environment_variables (t : ATree) (rd : ReadOracle) : List String :=
  let s1 := envFileNames.foldl (fun acc ef =>
    if pathExists t ef then
      pyTry (do
        let c ← rd ef
        pure (((splitOnChar '\n' c.data).map String.mk).foldl (fun a line =>
          if strContains line "=" && !(strStartsWith (pyStrip line) "#") then
            setAdd a (pyStrip (String.mk (line.data.takeWhile (fun ch => ch ≠ '='))))
          else a) acc)) acc
    else acc) []
  let s2 := t.files.foldl (fun acc f =>
    if strEndsWith f.name ".py" || strEndsWith f.name ".js" ||
        strEndsWith f.name ".ts" then
      pyTry (do
        let c ← rd f.rel
        let pys := (findallWith matchEnvCall (c.data.length + 1) c.data).map String.mk
        let jss := (findallWith matchProcEnv (c.data.length + 1) c.data).map String.mk
        pure (jss.foldl setAdd (pys.foldl setAdd acc))) acc
    else acc) s1
  s2.mergeSort (fun a b => decide (a ≤ b))

/-- The `testing_info` dict (pdf_generator.py 513-518);
`coverage_config` is never set by the code. -/
structure TestingInfo where
  frameworks : List String
  test_files : List String
  coverage_config : Bool
  ci_config : Bool
deriving DecidableEq, Repr

/-- The Node test-framework keys (pdf_generator.py line 536). -/
def jsTestFrameworks : List String := ["jest", "mocha", "jasmine", "cypress", "playwright"]

/-- The CI config paths (pdf_generator.py line 559). -/
def ciFiles : List String := [".github/workflows", ".gitlab-ci.yml", ".travis.yml", "Jenkinsfile"]

/-- The `analyze_testing_setup` (pdf_generator.py 511-565). -/
def analyze_testing_setup (t : ATree) (rd : ReadOracle) : TestingInfo :=
  let tfiles := t.files.foldl (fun acc f =>
    if strContains (lowerStr f.name) "test" || strStartsWith f.name "test_" ||
        strEndsWith f.name ".test.js" || strEndsWith f.name ".spec.js" then
      acc ++ [f.rel]
    else acc) []
  let fw1 :=
    if pathExists t "package.json" then
      pyTry (do
        let c ← rd "package.json"
        match jsonLoads c with
        | none => Except.error ()
        | some (.jobj fs) => do
          let deps ← mergedDepKeys fs
          pure (jsTestFrameworks.foldl (fun a fwn =>
            if deps.contains fwn then a ++ [fwn] else a) [])
        | some _ => Except.error ()) []
    else []
  let fw2 := ["requirements.txt", "requirements-dev.txt"].foldl (fun acc rf =>
    if pathExists t rf then
      pyTry (do
        let c ← rd rf
        let content := lowerStr c
        let acc1 := if strContains content "pytest" then acc ++ ["pytest"] else acc
        pure (if strContains content "unittest" then acc1 ++ ["unittest"] else acc1))
        acc
    else acc) fw1
  ⟨fw2, tfiles, false, ciFiles.any (pathExists t)⟩

/-- The `deployment_info` dict (pdf_generator.py 569-574). -/
structure DeploymentInfo where
  docker : Bool
  kubernetes : Bool
  cloud_config : List String
  deployment_files : List String
deriving DecidableEq, Repr

/-- The Kubernetes files (pdf_generator.py line 585). -/
def k8sFiles : List String := ["deployment.yaml", "service.yaml", "ingress.yaml"]

/-- The cloud configs table (pdf_generator.py 592-598). -/
def cloudConfigs : List (String × String) := [
  ("vercel.json", "Vercel"), ("netlify.toml", "Netlify"),
  ("app.yaml", "Google Cloud"), ("Procfile", "Heroku"),
  ("serverless.yml", "Serverless Framework")]

/-- The `analyze_deployment_config` (pdf_generator.py 567-605): pure
existence checks. -/
def analyze_deployment_config (t : ATree) : DeploymentInfo :=
  let docker := pathExists t "Dockerfile"
  let df1 := if docker then ["Dockerfile"] else []
  let df2 := if pathExists t "docker-compose.yml" then df1 ++ ["docker-compose.yml"] else df1
  let kd := k8sFiles.foldl (fun (acc : Bool × List String) kf =>
    if pathExists t kf then (true, acc.2 ++ [kf]) else acc) (false, df2)
  let cd := cloudConfigs.foldl (fun (acc : List String × List String) kv =>
    if pathExists t kv.1 then (acc.1 ++ [kv.2], acc.2 ++ [kv.1]) else acc)
    ([], kd.2)
  ⟨docker, kd.1, cd.1, cd.2⟩

/-- The `security_info` dict (pdf_generator.py 609-615); only
`authentication` is ever filled. -/
structure SecurityInfo where
  authentication : List String
  authorization : List String
  security_headers : Bool
  input_validation : Bool
  encryption : List String
deriving DecidableEq, Repr

/-- The `auth_patterns` (pdf_generator.py 618-624). -/
def authPatterns : List (String × String) := [
  ("jwt", "JWT Authentication"), ("oauth", "OAuth"),
  ("passport", "Passport.js"), ("auth0", "Auth0"),
  ("firebase auth", "Firebase Auth")]

/-- The `analyze_security_features` (pdf_generator.py 607-640): keyword scan
over `.py`/`.js`/`.ts` sources, appending (with duplicates) per file;
read errors skip the file. -/
def analyze_security_features (t : ATree) (rd : ReadOracle) : SecurityInfo :=
  let auth := t.files.foldl (fun acc f =>
    if strEndsWith f.name ".py" || strEndsWith f.name ".js" ||
        strEndsWith f.name ".ts" then
      pyTry (do
        let c ← rd f.rel
        let content := lowerStr c
        pure (authPatterns.foldl (fun a kv =>
          if strContains content kv.1 then a ++ [kv.2] else a) acc)) acc
    else acc) []
  ⟨auth, [], false, false, []⟩

/-- The `performance_info` dict (pdf_generator.py 644-649); only
`caching` is ever filled. -/
structure PerformanceInfo where
  caching : List String
  database_optimization : List String
  cdn_usage : Bool
  compression : Bool
deriving DecidableEq, Repr

/-- The `cache_patterns` (pdf_generator.py 652-656). -/
def cachePatterns : List (String × String) := [
  ("redis", "Redis"), ("memcached", "Memcached"), ("cache", "Generic Caching")]

/-- The `analyze_performance_aspects` (pdf_generator.py 642-672): keyword
scan over `.py`/`.js`/`.ts`/`.json` sources; read errors skip the
file. -/
def analyze_performance_aspects (t : ATree) (rd : ReadOracle) : PerformanceInfo :=
  let caching := t.files.foldl (fun acc f =>
    if strEndsWith f.name ".py" || strEndsWith f.name ".js" ||
        strEndsWith f.name ".ts" || strEndsWith f.name ".json" then
      pyTry (do
        let c ← rd f.rel
        let content := lowerStr c
        pure (cachePatterns.foldl (fun a kv =>
          if strContains content kv.1 then a ++ [kv.2] else a) acc)) acc
    else acc) []
  ⟨caching, [], false, false⟩

/-- The `analysis` dict of `analyze_project_structure`
(pdf_generator.py 116-128). -/
structure Analysis where
  project_info : ProjectInfo
  tech_stack : TechStack
  file_structure : FileStructure
  dependencies : List (String × List String)
  api_endpoints : List Endpoint
  database_schema : SchemaInfo
  environment_vars : List String
  testing_info : TestingInfo
  deployment_info : DeploymentInfo
  security_analysis : SecurityInfo
  performance_metrics : PerformanceInfo
deriving Repr

/-- The `analyze_project_structure` (pdf_generator.py 114-129): the
aggregation itself catches nothing — it merely calls the eleven
detectors in order; every exception-prone operation inside the detectors
(file reads, parses, sizes) sits inside a detector-local `try/except`
(`pyTry` in the model), so the detectors are total and the aggregation
can only return `Except.ok`. -/
def analyze_project_structure (t : ATree) (rd : ReadOracle) (sz : SizeOracle) :
    Py Analysis := do
  pure {
    project_info := extract_project_info t rd
    tech_stack := analyze_tech_stack t rd
    file_structure := analyze_file_structure t rd sz
    dependencies := analyze_dependencies t rd
    api_endpoints := extract_api_endpoints t rd
    database_schema := analyze_database_schema t rd
    environment_vars := extract_environment_variables t rd
    testing_info := analyze_testing_setup t rd
    deployment_info := analyze_deployment_config t
    security_analysis := analyze_security_features t rd
    performance_metrics := analyze_performance_aspects t rd }

theorem pyTry_bind_error {α β : Type} (k : α → Py β) (d : β) :
    pyTry (do let x ← (Except.error () : Py α); k x) d = d := rfl

theorem foldlStepsId {α β : Type} (step : β → α → β)
    (h : ∀ acc f, step acc f = acc) :
    ∀ (l : List α) (acc : β), l.foldl step acc = acc := by
  intro l
  induction l with
  | nil => intro acc; rfl
  | cons f rest ih => intro acc; rw [List.foldl_cons, h]; exact ih acc

theorem extract_api_endpoints_allreadsfail (t : ATree) :
    extract_api_endpoints t (fun _ => Except.error ()) = [] := by
  unfold extract_api_endpoints
  apply foldlStepsId
  intro acc f
  by_cases hp : strEndsWith f.name ".py" <;> simp [hp, pyTry_bind_error, pyTry]

theorem analyze_security_features_allreadsfail (t : ATree) :
    (analyze_security_features t (fun _ => Except.error ())).authentication = [] := by
  unfold analyze_security_features
  simp only
  rw [foldlStepsId]
  intro acc f
  by_cases hp : strEndsWith f.name ".py" || strEndsWith f.name ".js" ||
    strEndsWith f.name ".ts" <;> simp_all [pyTry_bind_error, pyTry]

theorem analyze_performance_aspects_allreadsfail (t : ATree) :
    (analyze_performance_aspects t (fun _ => Except.error ())).caching = [] := by
  unfold analyze_performance_aspects
  simp only
  rw [foldlStepsId]
  intro acc f
  by_cases hp : strEndsWith f.name ".py" || strEndsWith f.name ".js" ||
    strEndsWith f.name ".ts" || strEndsWith f.name ".json" <;>
    simp_all [pyTry_bind_error, pyTry]

theorem analyze_database_schema_allreadsfail (t : ATree) :
    analyze_database_schema t (fun _ => Except.error ()) =
      ⟨[], [], []⟩ := by
  unfold analyze_database_schema
  rw [foldlStepsId, foldlStepsId] <;>
    (intro acc f
     by_cases hp1 : strEndsWith f.name ".sql" <;>
       by_cases hp2 : strEndsWith f.name ".py" &&
          (strContains (lowerStr f.name) "model" ||
           strContains (lowerStr f.name) "schema") <;>
       simp_all [pyTry_bind_error, pyTry])

/-- C5: the project analysis aggregation never partially fails — for
every tree and every behavior of the read and size oracles (any file
read or stat may raise), `analyze_project_structure` completes with a
result holding every detector's value, because each detector wraps all
of its exception-prone operations in its own `try/except`; and when
every read raises, the affected detectors contribute their empty/default
values while the analysis still completes. -/
theorem analyze_project_structure_never_fails (t : ATree) (rd : ReadOracle)
    (sz : SizeOracle) :
    (∃ a, analyze_project_structure t rd sz = Except.ok a) ∧
    (∃ a, analyze_project_structure t (fun _ => Except.error ()) sz =
        Except.ok a ∧
      a.api_endpoints = [] ∧
      a.security_analysis.authentication = [] ∧
      a.performance_metrics.caching = [] ∧
      a.database_schema = ⟨[], [], []⟩) := by
  constructor
  · exact ⟨_, rfl⟩
  · refine ⟨_, rfl, ?_, ?_, ?_, ?_⟩
    · exact extract_api_endpoints_allreadsfail t
    · exact analyze_security_features_allreadsfail t
    · exact analyze_performance_aspects_allreadsfail t
    · exact analyze_database_schema_allreadsfail t

/-! ## Report assembly — `backend/utils/pdf_generator.py`
`generate_enhanced_pdf` (lines 709-854)

The reportlab flowables appended to `story` are modelled as tags; the
logo load and the architecture-diagram generation — the two optional,
failure-prone assets — are modelled as oracles that may raise. -/

/-- A flowable appended to the `story`. -/
inductive Flowable where
  | para (text : String) (style : String)
  | spacer (w h : Nat)
  | image (path : String)
  | table (tag : String)
  | pageBreak
deriving DecidableEq, Repr

/-- Python `", ".join`. -/
def joinComma : List String → String
  | [] => ""
  | [s] => s
  | s :: rest => s ++ ", " ++ joinComma rest

/-- Rendering of a JSON value inside an f-string (string values only;
the validated MCQ callers only pass strings here). -/
def jValText (v : JVal) : String :=
  match v with
  | .jstr s => s
  | _ => ""

/-- The option list of an MCQ dict (`mcq.get('options', [])`); the
validated callers guarantee a list value. -/
def mcqOptions (mcq : List (String × JVal)) : List JVal :=
  match jobjGet mcq "options" with
  | some (.jarr l) => l
  | _ => []

/-- One quiz block (pdf_generator.py 843-850): question header,
lettered options, answer box, spacer. -/
def mcqBlock (i : Nat) (mcq : List (String × JVal)) : List Flowable :=
  [Flowable.para ("Q" ++ toString i ++ ": " ++
    jValText ((jobjGet mcq "question").getD (.jstr ""))) "SubsectionHeader"] ++
  (List.enumFrom 1 (mcqOptions mcq)).map (fun oj =>
    Flowable.para (String.mk [Char.ofNat (64 + oj.1)] ++ ". " ++ jValText oj.2)
      "Normal") ++
  [Flowable.para ("Answer: " ++
      jValText ((jobjGet mcq "answer").getD (.jstr ""))) "InfoBox",
    Flowable.spacer 1 15]

/-- The `generate_enhanced_pdf` (pdf_generator.py 709-854): the `story`
assembled in source order.  `existsCheck` is `os.path.exists`,
`loadImage` the reportlab `Image` constructor (may raise), `diagram` the
`create_simple_architecture_diagram` call (may raise; returns the saved
path).  The logo block is guarded by `if logo_path and
os.path.exists(logo_path)` with the load in a `try/except`; the diagram
block is entirely inside a `try/except`. -/
def generate_enhanced_pdf (project_title : String) (analysis : Analysis)
    (summary : String) (mcqs : List (List (String × JVal)))
    (logo_path : Option String) (existsCheck : String → Bool)
    (loadImage : String → Py Unit) (diagram : Py String)
    (genDate : String) : List Flowable :=
  [Flowable.para project_title "MainTitle", Flowable.spacer 1 20] ++
  (match logo_path with
   | some p =>
     if !p.isEmpty && existsCheck p then
       match loadImage p with
       | .ok _ => [Flowable.image p, Flowable.spacer 1 20]
       | .error _ => []
     else []
   | none => []) ++
  [Flowable.para "Comprehensive Project Documentation" "Heading2",
   Flowable.para ("Generated: " ++ genDate) "Normal",
   Flowable.pageBreak] ++
  [Flowable.para "Project Overview" "SectionHeader",
   Flowable.para summary "Normal",
   Flowable.spacer 1 20] ++
  [Flowable.table "stats", Flowable.pageBreak] ++
  [Flowable.para "Technology Stack" "SectionHeader"] ++
  (if analysis.tech_stack.languages.isEmpty then []
   else [Flowable.para "Programming Languages" "SubsectionHeader",
     Flowable.para (joinComma analysis.tech_stack.languages) "Normal",
     Flowable.spacer 1 10]) ++
  (if analysis.tech_stack.frameworks.isEmpty then []
   else [Flowable.para "Frameworks & Libraries" "SubsectionHeader",
     Flowable.para (joinComma analysis.tech_stack.frameworks) "Normal",
     Flowable.spacer 1 10]) ++
  [Flowable.pageBreak] ++
  [Flowable.para "System Architecture" "SectionHeader"] ++
  (match diagram with
   | .ok p =>
     if !p.isEmpty && existsCheck p then
       match loadImage p with
       | .ok _ => [Flowable.image p]
       | .error _ => []
     else []
   | .error _ => []) ++
  [Flowable.pageBreak] ++
  [Flowable.para "File Structure Analysis" "SectionHeader"] ++
  (if analysis.file_structure.file_types.isEmpty then []
   else [Flowable.table "file_types"]) ++
  [Flowable.pageBreak] ++
  (if analysis.api_endpoints.isEmpty then []
   else [Flowable.para "API Endpoints" "SectionHeader",
     Flowable.table "api_endpoints", Flowable.pageBreak]) ++
  (if mcqs.isEmpty then []
   else [Flowable.para "Knowledge Assessment" "SectionHeader"] ++
     ((List.enumFrom 1 (mcqs.take 5)).map (fun mi => mcqBlock mi.1 mi.2)).flatten)

/-- C6: report assembly degrades gracefully — for EVERY combination of
logo state (absent path, dangling path, failing image load) and diagram
state (generation raising, missing file, failing load), the assembled
story still contains every non-optional section: the title, the project
overview with the summary text, the statistics table, and the
technology-stack, architecture and file-structure section headers; the
artifact is produced unconditionally (`generate_enhanced_pdf` is total
on the model). -/
theorem generate_enhanced_pdf_graceful (project_title : String)
    (analysis : Analysis) (summary : String)
    (mcqs : List (List (String × JVal))) (logo_path : Option String)
    (existsCheck : String → Bool) (loadImage : String → Py Unit)
    (diagram : Py String) (genDate : String) :
    Flowable.para project_title "MainTitle" ∈
      generate_enhanced_pdf project_title analysis summary mcqs logo_path
        existsCheck loadImage diagram genDate ∧
    Flowable.para "Project Overview" "SectionHeader" ∈
      generate_enhanced_pdf project_title analysis summary mcqs logo_path
        existsCheck loadImage diagram genDate ∧
    Flowable.para summary "Normal" ∈
      generate_enhanced_pdf project_title analysis summary mcqs logo_path
        existsCheck loadImage diagram genDate ∧
    Flowable.table "stats" ∈
      generate_enhanced_pdf project_title analysis summary mcqs logo_path
        existsCheck loadImage diagram genDate ∧
    Flowable.para "Technology Stack" "SectionHeader" ∈
      generate_enhanced_pdf project_title analysis summary mcqs logo_path
        existsCheck loadImage diagram genDate ∧
    Flowable.para "System Architecture" "SectionHeader" ∈
      generate_enhanced_pdf project_title analysis summary mcqs logo_path
        existsCheck loadImage diagram genDate ∧
    Flowable.para "File Structure Analysis" "SectionHeader" ∈
      generate_enhanced_pdf project_title analysis summary mcqs logo_path
        existsCheck loadImage diagram genDate := by
  refine ⟨?_, ?_, ?_, ?_, ?_, ?_, ?_⟩ <;>
    simp [generate_enhanced_pdf, List.mem_append]
